import Mathlib

/-!
# Verification of the invoice manager's core handlers

A shallow embedding of the TypeScript handlers in `src/server/src/handlers`
(`invoices.ts`, `clients.ts`, the items handler) over an explicit `Store`
(the five durable relations).  Monetary values are embedded as exact
rationals (`ℚ`); the JS string operations used by the invoice-number
allocator (`toString`, `padStart`, `split('-')`, `parseInt`, SQL `LIKE`
and `ORDER BY ... DESC LIMIT 1`) are embedded as executable functions on
`List Char` / `String`.
-/

set_option maxHeartbeats 1000000

namespace InvoiceApp

/-! ## Decimal strings: JS `Number.prototype.toString`, `String.prototype.padStart`,
`String.prototype.split('-')` and `parseInt(_, 10)` -/

/-- Fuel-indexed digit expansion (structural recursion so that the kernel can
evaluate it; `natToDecimal` supplies sufficient fuel). -/
def toDecimalAux : Nat → Nat → List Char
  | 0, _ => []
  | fuel + 1, n =>
    if n < 10 then [Nat.digitChar n]
    else toDecimalAux fuel (n / 10) ++ [Nat.digitChar (n % 10)]

/-- Decimal representation of a natural number, most significant digit first
(JS `n.toString()` for a nonnegative integer). -/
def natToDecimal (n : Nat) : List Char := toDecimalAux (n + 1) n

def natToString (n : Nat) : String := ⟨natToDecimal n⟩

/-- JS `s.padStart(len, c)`: prepend copies of `c` up to length `len`
(never truncates). -/
def padStart (c : Char) (len : Nat) (s : String) : String :=
  ⟨List.replicate (len - s.data.length) c ++ s.data⟩

/-- JS `(month).toString().padStart(2, '0')`. -/
def pad2 (n : Nat) : String := padStart '0' 2 (natToString n)

/-- JS `nextNumber.toString().padStart(4, '0')`. -/
def pad4 (n : Nat) : String := padStart '0' 4 (natToString n)

/-- Numeric value of a digit string (most significant first). -/
def digitsVal (l : List Char) : Nat := l.foldl (fun a c => a * 10 + (c.toNat - 48)) 0

/-- JS `parseInt(s, 10)` on our digit strings: `none` models `NaN`
(no leading digits). -/
def parseIntList (l : List Char) : Option Nat :=
  let ds := l.takeWhile Char.isDigit
  if ds.isEmpty then none else some (digitsVal ds)

/-- JS `s.split('-')`. -/
def splitDash : List Char → List (List Char)
  | [] => [[]]
  | c :: rest =>
    if c = '-' then [] :: splitDash rest
    else
      match splitDash rest with
      | [] => [[c]]
      | g :: gs => (c :: g) :: gs

/-- JS `invoice_number.split('-')[2]` (JS `undefined` collapses to `[]`,
which `parseInt` turns into `NaN`). -/
def suffixSegment (s : String) : List Char := (splitDash s.data).getD 2 []

/-- SQL `LIKE 'pfx%'` (drizzle `like(col, prefix-pattern)`): the pattern text
is a literal followed by `%`, i.e. a starts-with test. -/
def likeStartsWith (pfx s : String) : Bool := pfx.data.isPrefixOf s.data

/-- Suffixes of a character list, longest first (used to interpret the `%`
wildcard of SQL `LIKE`). -/
def sufs : List Char → List (List Char)
  | [] => [[]]
  | c :: cs => (c :: cs) :: sufs cs

/-- PostgreSQL `LIKE` pattern matching with the default escape character `\`:
`%` matches any sequence of characters, `_` matches exactly one character,
`\x` matches the literal character `x`, and any other pattern character
matches itself.  (A pattern ending in a bare `\` is an error in PostgreSQL; it
cannot arise from the patterns this application builds, which always end in
`%`, and is modelled as matching nothing.) -/
def likeMatch : List Char → List Char → Bool
  | [], ts => ts.isEmpty
  | '%' :: ps, ts => (sufs ts).any (fun t => likeMatch ps t)
  | '_' :: ps, ts =>
    match ts with
    | [] => false
    | _ :: ts' => likeMatch ps ts'
  | '\\' :: ps, ts =>
    match ps, ts with
    | p :: ps', t :: ts' => p == t && likeMatch ps' ts'
    | _, _ => false
  | p :: ps, ts =>
    match ts with
    | [] => false
    | t :: ts' => p == t && likeMatch ps ts'

/-- Drizzle `like(col, `%${search}%`)`: the raw search string is spliced
between two `%` into a `LIKE` pattern, so any `%`, `_` or `\` the search
string contains acts as a live wildcard rather than a literal character. -/
def likeContainsPat (needle s : String) : Bool :=
  likeMatch ('%' :: (needle.data ++ ['%'])) s.data

/-- Lexicographic comparison of character lists (database text ordering,
`C` collation). -/
def charsLt : List Char → List Char → Bool
  | [], [] => false
  | [], _ :: _ => true
  | _ :: _, [] => false
  | a :: as, b :: bs => if a < b then true else if b < a then false else charsLt as bs

def strLt (a b : String) : Bool := charsLt a.data b.data

/-- SQL `ORDER BY col DESC LIMIT 1`: the maximum of a list of strings in the
lexicographic text order, `none` on an empty relation. -/
def maxString? : List String → Option String
  | [] => none
  | s :: rest =>
    match maxString? rest with
    | none => some s
    | some m => some (if strLt m s then s else m)

/-! ## Storage rounding by the `numeric(10, 2)` columns (`db/schema`)

The drizzle schema declares every monetary column of the `invoices` and
`invoice_items` tables — `subtotal`, `discount`, `tax_amount`,
`total_amount`, `quantity`, `unit_price`, `line_total` — as
`numeric({ precision: 10, scale: 2 })`.  PostgreSQL rounds a value inserted
into such a column to 2 fraction digits, ties away from zero, and
`.returning()` yields the stored (rounded) row. -/

/-- Rounding of a rational to the nearest integer, ties away from zero — what
PostgreSQL does to the scaled value stored into a `numeric` column. -/
def roundAwayZero (y : ℚ) : ℤ := if 0 ≤ y then ⌊y + 1 / 2⌋ else -⌊-y + 1 / 2⌋

/-- The value actually persisted by a `numeric({ precision: 10, scale: 2 })`
column: the input rounded to 2 fraction digits, ties away from zero. -/
def pgRound2 (q : ℚ) : ℚ := ((roundAwayZero (q * 100) : ℤ) : ℚ) / 100

/-- An integer number of cents: exactly the rationals a `numeric(10, 2)`
column stores unchanged. -/
def cent2 (q : ℚ) : Prop := ∃ k : ℤ, q * 100 = (k : ℚ)

instance (q : ℚ) : Decidable (cent2 q) :=
  decidable_of_iff (q * 100 = ((⌊q * 100⌋ : ℤ) : ℚ)) (by
    constructor
    · intro h
      exact ⟨⌊q * 100⌋, h⟩
    · rintro ⟨k, hk⟩
      rw [hk, Int.floor_intCast])

/-! ## Data model (`src/server/src/schema.ts` and the durable relations) -/

inductive InvoiceStatus
  | draft | sent | paid | overdue
deriving DecidableEq

structure Client where
  id : Nat
  name : String
  email : String
  phone : Option String
  address : Option String
  created_at : Nat
  updated_at : Nat
deriving DecidableEq

structure Item where
  id : Nat
  name : String
  price : ℚ
  unit : String
  created_at : Nat
  updated_at : Nat
deriving DecidableEq

structure Invoice where
  id : Nat
  invoice_number : String
  client_id : Nat
  invoice_date : Nat
  due_date : Nat
  subtotal : ℚ
  discount : ℚ
  tax_rate : ℚ
  tax_amount : ℚ
  total_amount : ℚ
  status : InvoiceStatus
  notes : Option String
  created_at : Nat
  updated_at : Nat
deriving DecidableEq

structure InvoiceLine where
  id : Nat
  invoice_id : Nat
  item_id : Nat
  quantity : ℚ
  unit_price : ℚ
  line_total : ℚ
  created_at : Nat
deriving DecidableEq

/-- The persistent relations (clients, items, invoices, invoice_lines) plus
surrogate-key counters. -/
structure Store where
  clients : List Client
  items : List Item
  invoices : List Invoice
  invoice_lines : List InvoiceLine
  nextInvoiceId : Nat
  nextLineId : Nat
deriving DecidableEq

/-- Wall clock at the moment a handler runs: calendar year/month used by the
invoice-number allocator and a monotone instant stored in the timestamps. -/
structure Clock where
  year : Nat
  month : Nat
  time : Nat
deriving DecidableEq

structure LineItemInput where
  item_id : Nat
  quantity : ℚ
  unit_price : ℚ
deriving DecidableEq

structure CreateInvoiceInput where
  client_id : Nat
  invoice_date : Nat
  due_date : Nat
  discount : ℚ
  notes : Option String
  items : List LineItemInput
deriving DecidableEq

structure UpdateInvoiceInput where
  id : Nat
  client_id : Option Nat
  invoice_date : Option Nat
  due_date : Option Nat
  discount : Option ℚ
  notes : Option (Option String)
  items : Option (List LineItemInput)
deriving DecidableEq

structure UpdateInvoiceStatusInput where
  id : Nat
  status : InvoiceStatus
deriving DecidableEq

structure InvoiceFilter where
  status : Option InvoiceStatus
  client_id : Option Nat
  search : Option String
deriving DecidableEq

def emptyFilter : InvoiceFilter := ⟨none, none, none⟩

/-! ## Lookups shared by the handlers -/

def findClient (s : Store) (cid : Nat) : Option Client :=
  s.clients.find? (fun c => c.id == cid)

def findInvoice (s : Store) (iid : Nat) : Option Invoice :=
  s.invoices.find? (fun i => i.id == iid)

/-- SQL `db.select().from(itemsTable).where(inArray(itemsTable.id, itemIds))`:
each matching row appears once, regardless of duplicates in `itemIds`. -/
def findItemRows (s : Store) (ids : List Nat) : List Item :=
  s.items.filter (fun it => ids.contains it.id)

/-! ## Invoice handlers (`src/server/src/handlers/invoices.ts`) -/

/-- The month tag `INV-${now.getFullYear()}${(now.getMonth() + 1).toString().padStart(2, '0')}-`. -/
def monthCode (clk : Clock) : String :=
  "INV-" ++ natToString clk.year ++ pad2 clk.month ++ "-"

/-- Lines 47-61 of `createInvoice`: fetch the lexicographically greatest stored
number carrying the month's tag, parse its third `-`-segment, add one, pad to
four digits. -/
def allocateInvoiceNumber (stored : List String) (pfx : String) : String :=
  match maxString? (stored.filter (fun s => likeStartsWith pfx s)) with
  | none => pfx ++ pad4 1
  | some m =>
    match parseIntList (suffixSegment m) with
    | some k => pfx ++ pad4 (k + 1)
    | none => pfx ++ padStart '0' 4 "NaN"

/-- JS `input.items.reduce((sum, item) => sum + item.quantity * item.unit_price, 0)`. -/
def computeSubtotal (items : List LineItemInput) : ℚ :=
  items.foldl (fun sum it => sum + it.quantity * it.unit_price) 0

/-- The `invoiceItemsData` insert: one line per supplied item, with
`line_total = quantity * unit_price`; the `quantity`, `unit_price` and
`line_total` columns of `invoice_items` are `numeric(10, 2)`, so each stored
value passes through `pgRound2`. -/
def mkLines (invoiceId firstLineId : Nat) (items : List LineItemInput)
    (time : Nat) : List InvoiceLine :=
  items.enum.map (fun p =>
    { id := firstLineId + p.1
      invoice_id := invoiceId
      item_id := p.2.item_id
      quantity := pgRound2 p.2.quantity
      unit_price := pgRound2 p.2.unit_price
      line_total := pgRound2 (p.2.quantity * p.2.unit_price)
      created_at := time })

def createInvoice (s : Store) (input : CreateInvoiceInput) (clk : Clock) :
    Except String (Invoice × Store) :=
  if (findClient s input.client_id).isNone then .error "Client not found"
  else
    let itemIds := input.items.map (·.item_id)
    if (findItemRows s itemIds).length ≠ itemIds.length then
      .error "One or more items not found"
    else
      let pfx := monthCode clk
      let invoiceNumber := allocateInvoiceNumber (s.invoices.map (·.invoice_number)) pfx
      let subtotal := computeSubtotal input.items
      let discountedSubtotal := subtotal - input.discount
      let taxAmount := discountedSubtotal * (11 / 100)
      let totalAmount := discountedSubtotal + taxAmount
      let inv : Invoice :=
        { id := s.nextInvoiceId
          invoice_number := invoiceNumber
          client_id := input.client_id
          invoice_date := input.invoice_date
          due_date := input.due_date
          subtotal := pgRound2 subtotal
          discount := pgRound2 input.discount
          tax_rate := 11 / 100
          tax_amount := pgRound2 taxAmount
          total_amount := pgRound2 totalAmount
          status := .draft
          notes := input.notes
          created_at := clk.time
          updated_at := clk.time }
      .ok (inv,
        { s with
            invoices := s.invoices ++ [inv]
            invoice_lines := s.invoice_lines ++ mkLines inv.id s.nextLineId input.items clk.time
            nextInvoiceId := s.nextInvoiceId + 1
            nextLineId := s.nextLineId + input.items.length })

def updateInvoice (s : Store) (input : UpdateInvoiceInput) (clk : Clock) :
    Except String (Invoice × Store) :=
  match findInvoice s input.id with
  | none => .error "Invoice not found"
  | some existing =>
    let clientMissing :=
      match input.client_id with
      | some cid => cid != existing.client_id && (findClient s cid).isNone
      | none => false
    if clientMissing then .error "Client not found"
    else
      -- `updateData` holds only the supplied fields; a supplied discount is
      -- stored through the `numeric(10, 2)` column (an omitted one leaves the
      -- already-rounded column value in place, as does the items branch,
      -- which re-stores `parseFloat(existingInvoice.discount)` unchanged).
      let base : Invoice :=
        { existing with
            updated_at := clk.time
            client_id := input.client_id.getD existing.client_id
            invoice_date := input.invoice_date.getD existing.invoice_date
            due_date := input.due_date.getD existing.due_date
            discount := (input.discount.map pgRound2).getD existing.discount
            notes := input.notes.getD existing.notes }
      match input.items with
      | none =>
        .ok (base,
          { s with invoices := s.invoices.map (fun i => if i.id == input.id then base else i) })
      | some its =>
        let itemIds := its.map (·.item_id)
        if (findItemRows s itemIds).length ≠ itemIds.length then
          .error "One or more items not found"
        else
          -- The totals are computed from the raw inputs (the JS numbers) and
          -- then stored through the `numeric(10, 2)` columns.
          let subtotal := computeSubtotal its
          let discount := input.discount.getD existing.discount
          let discountedSubtotal := subtotal - discount
          let taxAmount := discountedSubtotal * (11 / 100)
          let totalAmount := discountedSubtotal + taxAmount
          let updated : Invoice :=
            { base with
                subtotal := pgRound2 subtotal
                tax_amount := pgRound2 taxAmount
                total_amount := pgRound2 totalAmount }
          .ok (updated,
            { s with
                invoices := s.invoices.map (fun i => if i.id == input.id then updated else i)
                invoice_lines :=
                  s.invoice_lines.filter (fun l => l.invoice_id != input.id)
                    ++ mkLines input.id s.nextLineId its clk.time
                nextLineId := s.nextLineId + its.length })

def updateInvoiceStatus (s : Store) (input : UpdateInvoiceStatusInput) (clk : Clock) :
    Except String (Invoice × Store) :=
  match findInvoice s input.id with
  | none => .error "Invoice not found"
  | some existing =>
    let updated := { existing with status := input.status, updated_at := clk.time }
    .ok (updated,
      { s with invoices := s.invoices.map (fun i => if i.id == input.id then updated else i) })

/-- The handler `deleteInvoice` never throws: it removes the lines, removes the invoice,
and reports whether an invoice row was actually deleted. -/
def deleteInvoice (s : Store) (iid : Nat) : Bool × Store :=
  let success := (s.invoices.filter (fun i => i.id == iid)).length > 0
  (success,
    { s with
        invoice_lines := s.invoice_lines.filter (fun l => l.invoice_id != iid)
        invoices := s.invoices.filter (fun i => i.id != iid) })

def getInvoiceById (s : Store) (iid : Nat) : Option Invoice := findInvoice s iid

def getInvoiceItems (s : Store) (iid : Nat) : List InvoiceLine :=
  List.insertionSort (fun a b => a.created_at ≤ b.created_at)
    (s.invoice_lines.filter (fun l => l.invoice_id == iid))

/-- SQL `eq(invoicesTable.status, filter.status)` when the filter carries a status. -/
def statusCond (o : Option InvoiceStatus) (inv : Invoice) : Bool :=
  match o with
  | some st => inv.status == st
  | none => true

/-- SQL `eq(invoicesTable.client_id, filter.client_id)` when present. -/
def clientCond (o : Option Nat) (inv : Invoice) : Bool :=
  match o with
  | some cid => inv.client_id == cid
  | none => true

/-- SQL `like(clientsTable.name, %s%)` over the left join on `client_id`
(`NULL` when the join finds no client, which the `OR` treats as false). -/
def clientNameCond (s : Store) (cid : Nat) (q : String) : Bool :=
  match findClient s cid with
  | some c => likeContainsPat q c.name
  | none => false

/-- SQL `or(like(invoice_number, %s%), like(clients.name, %s%))` when a search
string is present. -/
def searchCond (s : Store) (o : Option String) (inv : Invoice) : Bool :=
  match o with
  | some q => likeContainsPat q inv.invoice_number || clientNameCond s inv.client_id q
  | none => true

/-- The conjunction of filter conditions built by `getInvoices`. -/
def invoiceMatches (s : Store) (f : InvoiceFilter) (inv : Invoice) : Bool :=
  statusCond f.status inv && clientCond f.client_id inv && searchCond s f.search inv

def getInvoices (s : Store) (f : Option InvoiceFilter) : List Invoice :=
  List.insertionSort (fun a b => b.created_at ≤ a.created_at)
    (s.invoices.filter (invoiceMatches s (f.getD emptyFilter)))

/-! ## Deletion guards (`clients.ts` / the items handler) -/

def deleteClient (s : Store) (cid : Nat) : Except String Store :=
  if (s.invoices.filter (fun i => i.client_id == cid)).length > 0 then
    .error "Cannot delete client with existing invoices"
  else if (s.clients.filter (fun c => c.id == cid)).isEmpty then
    .error "Client not found"
  else
    .ok { s with clients := s.clients.filter (fun c => c.id != cid) }

def deleteItem (s : Store) (iid : Nat) : Except String Store :=
  if !(s.invoice_lines.filter (fun l => l.item_id == iid)).isEmpty then
    .error "Cannot delete item that is used in invoices"
  else if (s.items.filter (fun it => it.id == iid)).isEmpty then
    .error "Item not found"
  else
    .ok { s with items := s.items.filter (fun it => it.id != iid) }

/-! ## Operation sequences over the invoice store -/

inductive Op
  | create (input : CreateInvoiceInput) (clk : Clock)
  | update (input : UpdateInvoiceInput) (clk : Clock)
  | setStatus (input : UpdateInvoiceStatusInput) (clk : Clock)
  | del (iid : Nat)
deriving DecidableEq

/-- A thrown handler error rolls the transaction back: the store is unchanged. -/
def runOp (s : Store) : Op → Store
  | .create input clk =>
    match createInvoice s input clk with
    | .ok (_, s') => s'
    | .error _ => s
  | .update input clk =>
    match updateInvoice s input clk with
    | .ok (_, s') => s'
    | .error _ => s
  | .setStatus input clk =>
    match updateInvoiceStatus s input clk with
    | .ok (_, s') => s'
    | .error _ => s
  | .del iid => (deleteInvoice s iid).2

def runOps (s : Store) (ops : List Op) : Store := ops.foldl runOp s

/-! ## Derived-field invariant (§3 of the data model) -/

def linesFor (s : Store) (iid : Nat) : List InvoiceLine :=
  s.invoice_lines.filter (fun l => l.invoice_id == iid)

def linesSubtotal (ls : List InvoiceLine) : ℚ :=
  (ls.map (fun l => l.quantity * l.unit_price)).sum

/-- The derived-field invariant over the stored (column) values: the fixed tax
rate, cent-grained stored money, `subtotal = Σ line.quantity × line.unit_price`
over the invoice's current lines, `tax_amount` equal to the `numeric(10, 2)`
rounding of `(subtotal − discount) × tax_rate`, and the total identity. -/
def totalsConsistent (s : Store) : Prop :=
  ∀ i ∈ s.invoices,
    i.tax_rate = 11 / 100 ∧
    cent2 i.subtotal ∧
    cent2 i.discount ∧
    i.subtotal = linesSubtotal (linesFor s i.id) ∧
    i.tax_amount = pgRound2 ((i.subtotal - i.discount) * i.tax_rate) ∧
    i.total_amount = i.subtotal - i.discount + i.tax_amount

/-- A line-item input that the `numeric(10, 2)` storage keeps exactly: the
quantity, the unit price and their product are whole numbers of cents. -/
def centItem (li : LineItemInput) : Prop :=
  cent2 li.quantity ∧ cent2 li.unit_price ∧ cent2 (li.quantity * li.unit_price)

/-- The amendment's side conditions: an update that supplies a discount must
also supply `items[]` (otherwise the code stores the new discount without
recomputing the derived fields), and the monetary inputs are cent-grained
(otherwise the `numeric(10, 2)` columns round them on the way in). -/
def goodOp : Op → Prop
  | .create input _ => cent2 input.discount ∧ ∀ li ∈ input.items, centItem li
  | .update input _ =>
    (input.discount = none ∨ input.items ≠ none) ∧
    (∀ d, input.discount = some d → cent2 d) ∧
    (∀ its, input.items = some its → ∀ li ∈ its, centItem li)
  | _ => True

/-- Surrogate-key well-formedness of the store. -/
def storeWF (s : Store) : Prop :=
  (s.invoices.map (·.id)).Nodup ∧
  (∀ i ∈ s.invoices, i.id < s.nextInvoiceId) ∧
  (∀ l ∈ s.invoice_lines, l.invoice_id < s.nextInvoiceId)

instance (s : Store) : Decidable (totalsConsistent s) := by
  unfold totalsConsistent; infer_instance

instance (s : Store) : Decidable (storeWF s) := by
  unfold storeWF; infer_instance

/-! ## Spec-side definitions (for refinement comparisons only) -/

/-- Following the spec's words: round-half-up to exactly 2 fraction digits
(commercial HALF_UP, i.e. ties go away from zero). -/
def round2 (q : ℚ) : ℚ :=
  if 0 ≤ q then (⌊q * 100 + 1 / 2⌋ : ℚ) / 100
  else -((⌊-q * 100 + 1 / 2⌋ : ℚ) / 100)

/-- Following the spec's words for C9: case-insensitive substring match
against the invoice number or the owning client's name. -/
def specSearchMatches (s : Store) (q : String) (inv : Invoice) : Bool :=
  decide (q.data.map Char.toLower <:+: inv.invoice_number.data.map Char.toLower) ||
    (match findClient s inv.client_id with
     | some c => decide (q.data.map Char.toLower <:+: c.name.data.map Char.toLower)
     | none => false)

/-- The regular expression `^INV-\d{6}-\d{4}$` from the external contract. -/
def matchesInvFormat (s : String) : Bool :=
  match splitDash s.data with
  | [a, b, c] =>
    a == "INV".data && b.length == 6 && b.all Char.isDigit &&
      c.length == 4 && c.all Char.isDigit
  | _ => false

/-! ## Concrete fixtures used by witnesses and counterexamples -/

def exClient : Client := ⟨1, "ABC Company", "abc@test.com", none, none, 0, 0⟩
def exItem1 : Item := ⟨1, "Item 1", 10, "each", 0, 0⟩
def exItem2 : Item := ⟨2, "Item 2", 15, "each", 0, 0⟩
def exStore : Store := ⟨[exClient], [exItem1, exItem2], [], [], 0, 0⟩
def exClock : Clock := ⟨2025, 1, 100⟩
def exClock2 : Clock := ⟨2025, 1, 200⟩

def exInv : Invoice :=
  ⟨0, "INV-202501-0001", 1, 10, 40, 35, 5, 11 / 100, 33 / 10, 333 / 10, .draft, none, 100, 100⟩
def exLine1 : InvoiceLine := ⟨0, 0, 1, 2, 10, 20, 100⟩
def exLine2 : InvoiceLine := ⟨1, 0, 2, 1, 15, 15, 100⟩
def exStoreWithInv : Store :=
  ⟨[exClient], [exItem1, exItem2], [exInv], [exLine1, exLine2], 1, 2⟩

def c5input : UpdateInvoiceInput := ⟨0, none, none, none, none, some (some "Updated"), none⟩
def c5inv : Invoice :=
  ⟨0, "INV-202501-0001", 1, 10, 40, 35, 5, 11 / 100, 33 / 10, 333 / 10, .draft,
    some "Updated", 100, 200⟩
def c5post : Store := ⟨[exClient], [exItem1, exItem2], [c5inv], [exLine1, exLine2], 1, 2⟩

def c1exInput : CreateInvoiceInput :=
  ⟨1, 10, 40, 5, some "Test invoice", [⟨1, 2, 10⟩, ⟨2, 1, 15⟩]⟩
def c1subcentInput : CreateInvoiceInput := ⟨1, 10, 40, 0, none, [⟨1, 1, 227 / 5000⟩]⟩

def c3inv9999 : Invoice :=
  ⟨0, "INV-202501-9999", 1, 10, 40, 35, 5, 11 / 100, 33 / 10, 333 / 10, .draft, none, 100, 100⟩
def c3store : Store := ⟨[exClient], [exItem1, exItem2], [c3inv9999], [], 1, 0⟩
def c3input : CreateInvoiceInput := ⟨1, 10, 40, 0, none, [⟨1, 1, 10⟩]⟩

def c2createInput : CreateInvoiceInput := ⟨1, 10, 40, 0, none, [⟨1, 1, 100⟩]⟩
def c2updInput : UpdateInvoiceInput := ⟨0, none, none, none, some 50, none, none⟩
def c2ops : List Op := [.create c2createInput exClock, .update c2updInput exClock2]
def c2wops : List Op :=
  [.create c2createInput exClock, .setStatus ⟨0, .sent⟩ exClock2, .del 7]

def dupItemsInput : CreateInvoiceInput :=
  ⟨1, 10, 40, 0, none, [⟨1, 1, 2⟩, ⟨1, 3, 2⟩]⟩

/-! ## A two-process model of concurrent invoice creation (C10)

`createInvoice` performs two storage round-trips: it reads the stored numbers
and computes the next one (lines 48-61), then inserts the new invoice row
(line 73).  Two concurrent calls may interleave arbitrarily between those two
steps.  The insert is subject to the schema's uniqueness constraint: the
`db/schema` module declares `invoice_number: varchar(50).notNull().unique()`
on the invoices table. -/

inductive AllocPhase
  | ready (pfx : String)
  | allocated (pfx : String) (n : String)
  | committed (n : String)
  | conflicted
deriving DecidableEq

/-- The shared relation of stored invoice numbers plus the local state of two
concurrent `createInvoice` calls. -/
structure AllocSystem where
  numbers : List String
  p1 : AllocPhase
  p2 : AllocPhase
deriving DecidableEq

/-- One interleaving step of the two concurrent creates.  The commit steps
follow the schema: `db/schema` declares the invoices relation `.unique()` on
`invoice_number`, so a PostgreSQL insert of a number that is already stored
fails with a constraint violation, which the handler surfaces as an error
(the `catch` block rethrows; no retry is performed). -/
inductive AllocStep : AllocSystem → AllocSystem → Prop
  | alloc1 (st : AllocSystem) (pfx : String) :
      st.p1 = .ready pfx →
      AllocStep st { st with p1 := .allocated pfx (allocateInvoiceNumber st.numbers pfx) }
  | commit1_ok (st : AllocSystem) (pfx n : String) :
      st.p1 = .allocated pfx n → n ∉ st.numbers →
      AllocStep st { st with numbers := st.numbers ++ [n], p1 := .committed n }
  | commit1_conflict (st : AllocSystem) (pfx n : String) :
      st.p1 = .allocated pfx n → n ∈ st.numbers →
      AllocStep st { st with p1 := .conflicted }
  | alloc2 (st : AllocSystem) (pfx : String) :
      st.p2 = .ready pfx →
      AllocStep st { st with p2 := .allocated pfx (allocateInvoiceNumber st.numbers pfx) }
  | commit2_ok (st : AllocSystem) (pfx n : String) :
      st.p2 = .allocated pfx n → n ∉ st.numbers →
      AllocStep st { st with numbers := st.numbers ++ [n], p2 := .committed n }
  | commit2_conflict (st : AllocSystem) (pfx n : String) :
      st.p2 = .allocated pfx n → n ∈ st.numbers →
      AllocStep st { st with p2 := .conflicted }

def c10init : AllocSystem := ⟨[], .ready "INV-202501-", .ready "INV-202501-"⟩
def c10s1 : AllocSystem :=
  ⟨[], .allocated "INV-202501-" "INV-202501-0001", .ready "INV-202501-"⟩
def c10s2 : AllocSystem :=
  ⟨[], .allocated "INV-202501-" "INV-202501-0001",
    .allocated "INV-202501-" "INV-202501-0001"⟩
def c10s3 : AllocSystem :=
  ⟨["INV-202501-0001"], .committed "INV-202501-0001",
    .allocated "INV-202501-" "INV-202501-0001"⟩
def c10s4 : AllocSystem :=
  ⟨["INV-202501-0001"], .committed "INV-202501-0001", .conflicted⟩

/-! ## Lemmas about the decimal-string machinery -/

theorem toDecimalAux_congr :
    ∀ f₁ f₂ n, n < f₁ → n < f₂ → toDecimalAux f₁ n = toDecimalAux f₂ n := by
  intro f₁
  induction f₁ with
  | zero => omega
  | succ f ih =>
    intro f₂ n h1 h2
    cases f₂ with
    | zero => omega
    | succ g =>
      by_cases h : n < 10
      · simp [toDecimalAux, h]
      · have hd : n / 10 < n := Nat.div_lt_self (by omega) (by omega)
        simp only [toDecimalAux, h, if_false]
        rw [ih g (n / 10) (by omega) (by omega)]

theorem toDecimalAux_succ (f n : Nat) :
    toDecimalAux (f + 1) n =
      if n < 10 then [Nat.digitChar n]
      else toDecimalAux f (n / 10) ++ [Nat.digitChar (n % 10)] := rfl

theorem natToDecimal_eq (n : Nat) :
    natToDecimal n =
      if n < 10 then [Nat.digitChar n]
      else natToDecimal (n / 10) ++ [Nat.digitChar (n % 10)] := by
  by_cases h : n < 10
  · simp [natToDecimal, toDecimalAux, h]
  · have hd : n / 10 < n := Nat.div_lt_self (by omega) (by omega)
    rw [natToDecimal, toDecimalAux_succ, if_neg h, if_neg h,
      toDecimalAux_congr n (n / 10 + 1) (n / 10) (by omega) (by omega)]
    rfl

theorem natToDecimal_lt10 {n : Nat} (h : n < 10) :
    natToDecimal n = [Nat.digitChar n] := by
  rw [natToDecimal_eq, if_pos h]

theorem natToDecimal_lt100 {n : Nat} (h1 : 10 ≤ n) (h2 : n < 100) :
    natToDecimal n = [Nat.digitChar (n / 10), Nat.digitChar (n % 10)] := by
  rw [natToDecimal_eq, if_neg (by omega), natToDecimal_lt10 (by omega)]
  rfl

theorem natToDecimal_lt1000 {n : Nat} (h1 : 100 ≤ n) (h2 : n < 1000) :
    natToDecimal n =
      [Nat.digitChar (n / 100), Nat.digitChar (n / 10 % 10), Nat.digitChar (n % 10)] := by
  rw [natToDecimal_eq, if_neg (by omega), natToDecimal_lt100 (by omega) (by omega)]
  have e1 : n / 10 / 10 = n / 100 := by omega
  rw [e1]
  rfl

theorem natToDecimal_lt10000 {n : Nat} (h1 : 1000 ≤ n) (h2 : n < 10000) :
    natToDecimal n =
      [Nat.digitChar (n / 1000), Nat.digitChar (n / 100 % 10),
        Nat.digitChar (n / 10 % 10), Nat.digitChar (n % 10)] := by
  rw [natToDecimal_eq, if_neg (by omega), natToDecimal_lt1000 (by omega) (by omega)]
  have e1 : n / 10 / 100 = n / 1000 := by omega
  have e2 : n / 10 / 10 % 10 = n / 100 % 10 := by omega
  rw [e1, e2]
  rfl

theorem digitChar_isDigit : ∀ d < 10, (Nat.digitChar d).isDigit = true := by decide

theorem digitChar_toNat : ∀ d < 10, (Nat.digitChar d).toNat - 48 = d := by decide

theorem digitChar_ne_dash : ∀ d < 10, Nat.digitChar d ≠ '-' := by decide

theorem digitChar_lt_iff :
    ∀ a < 10, ∀ b < 10, (Nat.digitChar a < Nat.digitChar b ↔ a < b) := by decide

theorem natToDecimal_mem {n : Nat} :
    ∀ c ∈ natToDecimal n, ∃ d, d < 10 ∧ c = Nat.digitChar d := by
  induction n using Nat.strong_induction_on with
  | _ n ih =>
    intro c hc
    rw [natToDecimal_eq] at hc
    by_cases h : n < 10
    · rw [if_pos h] at hc
      simp only [List.mem_singleton] at hc
      exact ⟨n, h, hc⟩
    · rw [if_neg h] at hc
      rcases List.mem_append.1 hc with h' | h'
      · exact ih (n / 10) (Nat.div_lt_self (by omega) (by omega)) c h'
      · simp only [List.mem_singleton] at h'
        exact ⟨n % 10, by omega, h'⟩

theorem natToDecimal_ne_nil (n : Nat) : natToDecimal n ≠ [] := by
  rw [natToDecimal_eq]
  split <;> simp

theorem dash_not_mem_natToDecimal (n : Nat) : '-' ∉ natToDecimal n := by
  intro h
  obtain ⟨d, hd, he⟩ := natToDecimal_mem _ h
  exact digitChar_ne_dash d hd he.symm

theorem natToDecimal_all_isDigit (n : Nat) :
    ∀ c ∈ natToDecimal n, c.isDigit = true := by
  intro c hc
  obtain ⟨d, hd, he⟩ := natToDecimal_mem _ hc
  rw [he]
  exact digitChar_isDigit d hd

theorem pad2_data (m : Nat) :
    (pad2 m).data = List.replicate (2 - (natToDecimal m).length) '0' ++ natToDecimal m := rfl

theorem pad4_data_eq (k : Nat) :
    (pad4 k).data = List.replicate (4 - (natToDecimal k).length) '0' ++ natToDecimal k := rfl

theorem dash_not_mem_pad2 (m : Nat) : '-' ∉ (pad2 m).data := by
  rw [pad2_data]
  intro h
  rcases List.mem_append.1 h with h' | h'
  · have := List.eq_of_mem_replicate h'
    simp at this
  · exact dash_not_mem_natToDecimal m h'

theorem dash_not_mem_pad4 (k : Nat) : '-' ∉ (pad4 k).data := by
  rw [pad4_data_eq]
  intro h
  rcases List.mem_append.1 h with h' | h'
  · have := List.eq_of_mem_replicate h'
    simp at this
  · exact dash_not_mem_natToDecimal k h'

theorem pad4_all_isDigit (k : Nat) : ∀ c ∈ (pad4 k).data, c.isDigit = true := by
  rw [pad4_data_eq]
  intro c hc
  rcases List.mem_append.1 hc with h' | h'
  · rw [List.eq_of_mem_replicate h']
    decide
  · exact natToDecimal_all_isDigit k c h'

theorem pad2_all_isDigit (m : Nat) : ∀ c ∈ (pad2 m).data, c.isDigit = true := by
  rw [pad2_data]
  intro c hc
  rcases List.mem_append.1 hc with h' | h'
  · rw [List.eq_of_mem_replicate h']
    decide
  · exact natToDecimal_all_isDigit m c h'

theorem pad4_data (k : Nat) (h : k < 10000) :
    (pad4 k).data =
      [Nat.digitChar (k / 1000), Nat.digitChar (k / 100 % 10),
        Nat.digitChar (k / 10 % 10), Nat.digitChar (k % 10)] := by
  have h0 : Nat.digitChar 0 = '0' := rfl
  rw [pad4_data_eq]
  rcases Nat.lt_or_ge k 10 with h1 | h1
  · rw [natToDecimal_lt10 h1]
    have e1 : k / 1000 = 0 := by omega
    have e2 : k / 100 % 10 = 0 := by omega
    have e3 : k / 10 % 10 = 0 := by omega
    have e4 : k % 10 = k := by omega
    rw [e1, e2, e3, e4, h0]
    rfl
  rcases Nat.lt_or_ge k 100 with h2 | h2
  · rw [natToDecimal_lt100 h1 h2]
    have e1 : k / 1000 = 0 := by omega
    have e2 : k / 100 % 10 = 0 := by omega
    have e3 : k / 10 % 10 = k / 10 := by omega
    rw [e1, e2, e3, h0]
    rfl
  rcases Nat.lt_or_ge k 1000 with h3 | h3
  · rw [natToDecimal_lt1000 h2 h3]
    have e1 : k / 1000 = 0 := by omega
    have e2 : k / 100 % 10 = k / 100 := by omega
    rw [e1, e2, h0]
    rfl
  · rw [natToDecimal_lt10000 h3 h]
    rfl

theorem pad2_data_of_lt {m : Nat} (h : m < 100) :
    (pad2 m).data = [Nat.digitChar (m / 10), Nat.digitChar (m % 10)] := by
  have h0 : Nat.digitChar 0 = '0' := rfl
  rw [pad2_data]
  rcases Nat.lt_or_ge m 10 with h1 | h1
  · rw [natToDecimal_lt10 h1]
    have e1 : m / 10 = 0 := by omega
    have e2 : m % 10 = m := by omega
    rw [e1, e2, h0]
    rfl
  · rw [natToDecimal_lt100 h1 h]
    rfl

theorem digitsVal_append_singleton (l : List Char) (c : Char) :
    digitsVal (l ++ [c]) = digitsVal l * 10 + (c.toNat - 48) := by
  simp [digitsVal, List.foldl_append]

theorem digitsVal_natToDecimal : ∀ n, digitsVal (natToDecimal n) = n := by
  intro n
  induction n using Nat.strong_induction_on with
  | _ n ih =>
    rw [natToDecimal_eq]
    by_cases h : n < 10
    · rw [if_pos h]
      have := digitChar_toNat n h
      simp [digitsVal]
      omega
    · rw [if_neg h, digitsVal_append_singleton,
        ih (n / 10) (Nat.div_lt_self (by omega) (by omega)),
        digitChar_toNat (n % 10) (by omega)]
      omega

theorem digitsVal_replicate_zero :
    ∀ (j : Nat) (l : List Char), digitsVal (List.replicate j '0' ++ l) = digitsVal l := by
  intro j
  induction j with
  | zero => simp
  | succ j ih =>
    intro l
    have : List.replicate (j + 1) '0' ++ l = '0' :: (List.replicate j '0' ++ l) := by
      simp [List.replicate_succ]
    rw [this]
    show List.foldl _ (0 * 10 + ('0'.toNat - 48)) _ = _
    have h0 : 0 * 10 + ('0'.toNat - 48) = 0 := by decide
    rw [h0]
    exact ih l

theorem parseIntList_pad4 (k : Nat) : parseIntList (pad4 k).data = some k := by
  have hall : ∀ c ∈ (pad4 k).data, Char.isDigit c = true := pad4_all_isDigit k
  have htw : (pad4 k).data.takeWhile Char.isDigit = (pad4 k).data :=
    List.takeWhile_eq_self_iff.2 hall
  have hne : (pad4 k).data ≠ [] := by
    rw [pad4_data_eq]
    intro h
    exact natToDecimal_ne_nil k (List.append_eq_nil.1 h).2
  rw [parseIntList]
  simp only [htw]
  rw [if_neg (by simpa [List.isEmpty_iff] using hne)]
  rw [pad4_data_eq, digitsVal_replicate_zero, digitsVal_natToDecimal]

theorem splitDash_ne_nil : ∀ l, splitDash l ≠ [] := by
  intro l
  cases l with
  | nil => simp [splitDash]
  | cons c rest =>
    by_cases h : c = '-'
    · simp [splitDash, h]
    · simp only [splitDash, h, if_false]
      split <;> simp

theorem splitDash_no_dash : ∀ l, '-' ∉ l → splitDash l = [l] := by
  intro l
  induction l with
  | nil => intro; rfl
  | cons c rest ih =>
    intro h
    have hc : ¬ c = '-' := by
      intro e
      exact h (by simp [e])
    have hr : '-' ∉ rest := fun hm => h (List.mem_cons_of_mem _ hm)
    simp only [splitDash, hc, if_false, ih hr]

theorem splitDash_append_dash :
    ∀ (a rest : List Char), '-' ∉ a → splitDash (a ++ '-' :: rest) = a :: splitDash rest := by
  intro a
  induction a with
  | nil =>
    intro rest _
    simp [splitDash]
  | cons c a' ih =>
    intro rest h
    have hc : ¬ c = '-' := by
      intro e
      exact h (by simp [e])
    have ha : '-' ∉ a' := fun hm => h (List.mem_cons_of_mem _ hm)
    have hcons : splitDash (a' ++ '-' :: rest) = a' :: splitDash rest := ih rest ha
    simp only [List.cons_append, splitDash, hc, if_false, List.append_eq, hcons]

theorem suffixSegment_monthCode (clk : Clock) (tail : String) (ht : '-' ∉ tail.data) :
    suffixSegment (monthCode clk ++ tail) = tail.data := by
  have hym : '-' ∉ natToDecimal clk.year ++ (pad2 clk.month).data := by
    intro h
    rcases List.mem_append.1 h with h' | h'
    · exact dash_not_mem_natToDecimal _ h'
    · exact dash_not_mem_pad2 _ h'
  have hdata : (monthCode clk ++ tail).data =
      ['I', 'N', 'V'] ++ '-' ::
        ((natToDecimal clk.year ++ (pad2 clk.month).data) ++ '-' :: tail.data) := by
    simp [monthCode, natToString, String.data_append]
  rw [suffixSegment, hdata, splitDash_append_dash _ _ (by decide),
    splitDash_append_dash _ _ hym, splitDash_no_dash _ ht]
  rfl

theorem splitDash_monthCode (clk : Clock) (tail : String) (ht : '-' ∉ tail.data) :
    splitDash (monthCode clk ++ tail).data =
      [['I', 'N', 'V'], natToDecimal clk.year ++ (pad2 clk.month).data, tail.data] := by
  have hym : '-' ∉ natToDecimal clk.year ++ (pad2 clk.month).data := by
    intro h
    rcases List.mem_append.1 h with h' | h'
    · exact dash_not_mem_natToDecimal _ h'
    · exact dash_not_mem_pad2 _ h'
  have hdata : (monthCode clk ++ tail).data =
      ['I', 'N', 'V'] ++ '-' ::
        ((natToDecimal clk.year ++ (pad2 clk.month).data) ++ '-' :: tail.data) := by
    simp [monthCode, natToString, String.data_append]
  rw [hdata, splitDash_append_dash _ _ (by decide),
    splitDash_append_dash _ _ hym, splitDash_no_dash _ ht]

/-! ## Lemmas about the lexicographic comparison and the allocator -/

theorem charsLt_irrefl : ∀ l, charsLt l l = false := by
  intro l
  induction l with
  | nil => rfl
  | cons a as ih => simp [charsLt, lt_irrefl, ih]

theorem charsLt_cons_self (c : Char) (u v : List Char) :
    charsLt (c :: u) (c :: v) = charsLt u v := by
  simp [charsLt, lt_irrefl]

theorem charsLt_asymm : ∀ u v, charsLt u v = true → charsLt v u = false := by
  intro u
  induction u with
  | nil =>
    intro v h
    cases v with
    | nil => simp [charsLt] at h
    | cons b bs => rfl
  | cons a as ih =>
    intro v h
    cases v with
    | nil => simp [charsLt] at h
    | cons b bs =>
      by_cases hab : a < b
      · have hba : ¬ b < a := lt_asymm hab
        simp [charsLt, hba, hab]
      · by_cases hba : b < a
        · simp [charsLt, hab, hba] at h
        · simp only [charsLt, if_neg hab, if_neg hba] at h
          simp only [charsLt, if_neg hba, if_neg hab]
          exact ih bs h

theorem charsLt_append_left :
    ∀ (p u v : List Char), charsLt (p ++ u) (p ++ v) = charsLt u v := by
  intro p
  induction p with
  | nil => simp
  | cons c cs ih =>
    intro u v
    simp only [List.cons_append, charsLt_cons_self]
    exact ih u v

theorem charsLt_pad4_of_lt {a b : Nat} (hab : a < b) (hb : b < 10000) :
    charsLt (pad4 a).data (pad4 b).data = true := by
  have ha : a < 10000 := by omega
  rw [pad4_data a ha, pad4_data b hb]
  have d3a : a / 1000 < 10 := by omega
  have d3b : b / 1000 < 10 := by omega
  have d2a : a / 100 % 10 < 10 := by omega
  have d2b : b / 100 % 10 < 10 := by omega
  have d1a : a / 10 % 10 < 10 := by omega
  have d1b : b / 10 % 10 < 10 := by omega
  have d0a : a % 10 < 10 := by omega
  have d0b : b % 10 < 10 := by omega
  rcases Nat.lt_or_ge (a / 1000) (b / 1000) with h3 | h3
  · have hlt := (digitChar_lt_iff _ d3a _ d3b).2 h3
    simp only [charsLt]
    rw [if_pos hlt]
  · have e3 : a / 1000 = b / 1000 := by omega
    rw [e3, charsLt_cons_self]
    rcases Nat.lt_or_ge (a / 100 % 10) (b / 100 % 10) with h2 | h2
    · have hlt := (digitChar_lt_iff _ d2a _ d2b).2 h2
      simp only [charsLt]
      rw [if_pos hlt]
    · have e2 : a / 100 % 10 = b / 100 % 10 := by omega
      rw [e2, charsLt_cons_self]
      rcases Nat.lt_or_ge (a / 10 % 10) (b / 10 % 10) with h1 | h1
      · have hlt := (digitChar_lt_iff _ d1a _ d1b).2 h1
        simp only [charsLt]
        rw [if_pos hlt]
      · have e1 : a / 10 % 10 = b / 10 % 10 := by omega
        rw [e1, charsLt_cons_self]
        have h0 : a % 10 < b % 10 := by omega
        have hlt := (digitChar_lt_iff _ d0a _ d0b).2 h0
        simp only [charsLt]
        rw [if_pos hlt]

theorem strLt_pad4_of_lt (pfx : String) {a b : Nat} (hab : a < b) (hb : b < 10000) :
    strLt (pfx ++ pad4 a) (pfx ++ pad4 b) = true := by
  rw [strLt, String.data_append, String.data_append, charsLt_append_left]
  exact charsLt_pad4_of_lt hab hb

theorem strLt_pad4_self (pfx : String) (a : Nat) :
    strLt (pfx ++ pad4 a) (pfx ++ pad4 a) = false := by
  rw [strLt, charsLt_irrefl]

theorem strLt_pad4_of_gt (pfx : String) {a b : Nat} (hab : b < a) (ha : a < 10000) :
    strLt (pfx ++ pad4 a) (pfx ++ pad4 b) = false := by
  rw [strLt, String.data_append, String.data_append, charsLt_append_left]
  exact charsLt_asymm _ _ (charsLt_pad4_of_lt hab ha)

theorem maxString?_map_pad4 (pfx : String) :
    ∀ ks : List Nat, ks ≠ [] → (∀ k ∈ ks, k ≤ 9999) →
      ∃ M, M ∈ ks ∧ (∀ k ∈ ks, k ≤ M) ∧
        maxString? (ks.map (fun k => pfx ++ pad4 k)) = some (pfx ++ pad4 M) := by
  intro ks
  induction ks with
  | nil => simp
  | cons k rest ih =>
    intro _ hb
    by_cases hr : rest = []
    · subst hr
      exact ⟨k, by simp, by simp, by simp [maxString?]⟩
    · obtain ⟨M, hM1, hM2, hM3⟩ := ih hr (fun x hx => hb x (List.mem_cons_of_mem _ hx))
      have hbk : k ≤ 9999 := hb k (List.mem_cons_self _ _)
      have hbM : M ≤ 9999 := hb M (List.mem_cons_of_mem _ hM1)
      rcases Nat.lt_trichotomy M k with h | h | h
      · have hlt := strLt_pad4_of_lt pfx h (by omega)
        refine ⟨k, List.mem_cons_self _ _, ?_, ?_⟩
        · intro x hx
          rcases List.mem_cons.1 hx with rfl | hx
          · exact le_refl _
          · exact le_trans (hM2 x hx) (by omega)
        · simp [maxString?, hM3, hlt]
      · subst h
        refine ⟨M, List.mem_cons_self _ _, ?_, ?_⟩
        · intro x hx
          rcases List.mem_cons.1 hx with rfl | hx
          · exact le_refl _
          · exact hM2 x hx
        · simp [maxString?, hM3, strLt_pad4_self]
      · have hlt := strLt_pad4_of_gt pfx h (by omega)
        refine ⟨M, List.mem_cons_of_mem _ hM1, ?_, ?_⟩
        · intro x hx
          rcases List.mem_cons.1 hx with rfl | hx
          · exact le_of_lt h
          · exact hM2 x hx
        · simp [maxString?, hM3, hlt]

theorem likeStartsWith_append (pfx t : String) : likeStartsWith pfx (pfx ++ t) = true := by
  simp [likeStartsWith, String.data_append]

theorem allocateInvoiceNumber_of_filter_eq (stored : List String) (clk : Clock)
    (ks : List Nat)
    (hf : stored.filter (fun s => likeStartsWith (monthCode clk) s) =
      ks.map (fun k => monthCode clk ++ pad4 k))
    (hb : ∀ k ∈ ks, k ≤ 9999) :
    (ks = [] → allocateInvoiceNumber stored (monthCode clk) = monthCode clk ++ pad4 1) ∧
    (∀ M, M ∈ ks → (∀ k ∈ ks, k ≤ M) →
      allocateInvoiceNumber stored (monthCode clk) = monthCode clk ++ pad4 (M + 1)) := by
  constructor
  · intro h
    subst h
    simp only [List.map_nil] at hf
    simp [allocateInvoiceNumber, hf, maxString?]
  · intro M hM hub
    have hne : ks ≠ [] := by
      intro h
      subst h
      simp at hM
    obtain ⟨M', h1, h2, h3⟩ := maxString?_map_pad4 (monthCode clk) ks hne hb
    have hMM : M' = M := le_antisymm (hub M' h1) (h2 M hM)
    subst hMM
    rw [allocateInvoiceNumber, hf, h3]
    simp only [suffixSegment_monthCode _ _ (dash_not_mem_pad4 M'), parseIntList_pad4]

theorem matchesInvFormat_monthCode_pad4 (clk : Clock) (k : Nat)
    (hy1 : 1000 ≤ clk.year) (hy2 : clk.year < 10000)
    (hm : clk.month < 100) (hk : k < 10000) :
    matchesInvFormat (monthCode clk ++ pad4 k) = true := by
  have hsplit := splitDash_monthCode clk (pad4 k) (dash_not_mem_pad4 k)
  have hylen : (natToDecimal clk.year).length = 4 := by
    rw [natToDecimal_lt10000 hy1 hy2]
    rfl
  have hmlen : ((pad2 clk.month).data).length = 2 := by
    rw [pad2_data_of_lt hm]
    rfl
  have hklen : ((pad4 k).data).length = 4 := by
    rw [pad4_data k hk]
    rfl
  have hbd : (natToDecimal clk.year ++ (pad2 clk.month).data).all Char.isDigit = true := by
    rw [List.all_append]
    refine Bool.and_eq_true_iff.2 ⟨?_, ?_⟩ <;> rw [List.all_eq_true]
    · exact natToDecimal_all_isDigit clk.year
    · exact pad2_all_isDigit clk.month
  have hcd : ((pad4 k).data).all Char.isDigit = true := by
    rw [List.all_eq_true]
    exact pad4_all_isDigit k
  rw [matchesInvFormat, hsplit]
  simp [List.length_append, hylen, hmlen, hklen, hbd, hcd]

/-! ## Destructor lemmas for the handlers -/

theorem computeSubtotal_foldl (f : LineItemInput → ℚ) :
    ∀ (l : List LineItemInput) (a : ℚ),
      List.foldl (fun s x => s + f x) a l = a + (l.map f).sum := by
  intro l
  induction l with
  | nil => intro a; simp
  | cons x xs ih =>
    intro a
    simp only [List.foldl_cons, List.map_cons, List.sum_cons, ih]
    ring

theorem computeSubtotal_eq_sum (items : List LineItemInput) :
    computeSubtotal items = (items.map (fun it => it.quantity * it.unit_price)).sum := by
  rw [computeSubtotal, computeSubtotal_foldl (fun it => it.quantity * it.unit_price)]
  simp

/-! ## Lemmas about the `numeric(10, 2)` storage rounding -/

theorem floor_half : ⌊(1 / 2 : ℚ)⌋ = 0 := by
  rw [Int.floor_eq_zero_iff, Set.mem_Ico]
  norm_num

theorem roundAwayZero_intCast (k : ℤ) : roundAwayZero (k : ℚ) = k := by
  rw [roundAwayZero]
  by_cases h : (0 : ℚ) ≤ (k : ℚ)
  · rw [if_pos h, Int.floor_int_add, floor_half]
    omega
  · rw [if_neg h]
    have he : -(k : ℚ) + 1 / 2 = ((-k : ℤ) : ℚ) + 1 / 2 := by push_cast; ring
    rw [he, Int.floor_int_add, floor_half]
    omega

theorem roundAwayZero_nonpos {y : ℚ} (hy : y ≤ 0) :
    roundAwayZero y = -⌊-y + 1 / 2⌋ := by
  rw [roundAwayZero]
  by_cases h : 0 ≤ y
  · have h0 : y = 0 := le_antisymm hy h
    subst h0
    rw [if_pos le_rfl, show (0 : ℚ) + 1 / 2 = 1 / 2 by ring,
      show -(0 : ℚ) + 1 / 2 = 1 / 2 by ring, floor_half]
    omega
  · rw [if_neg h]

theorem roundAwayZero_int_add (k : ℤ) {y : ℚ}
    (h : (0 ≤ k ∧ 0 ≤ y) ∨ (k ≤ 0 ∧ y ≤ 0)) :
    roundAwayZero ((k : ℚ) + y) = k + roundAwayZero y := by
  rcases h with ⟨hk, hy⟩ | ⟨hk, hy⟩
  · have hkQ : (0 : ℚ) ≤ (k : ℚ) := by exact_mod_cast hk
    have hky : (0 : ℚ) ≤ (k : ℚ) + y := by linarith
    rw [roundAwayZero, if_pos hky, add_assoc, Int.floor_int_add,
      roundAwayZero, if_pos hy]
  · rcases eq_or_lt_of_le hk with rfl | hk'
    · simp
    · have hk1 : k ≤ -1 := by omega
      have hkQ : (k : ℚ) ≤ -1 := by exact_mod_cast hk1
      have hyneg : (k : ℚ) + y ≤ 0 := by linarith
      rw [roundAwayZero_nonpos hyneg, roundAwayZero_nonpos hy]
      have hcast : -((k : ℚ) + y) + 1 / 2 = ((-k : ℤ) : ℚ) + (-y + 1 / 2) := by
        push_cast
        ring
      rw [hcast, Int.floor_int_add]
      ring

theorem pgRound2_cent2 {q : ℚ} (h : cent2 q) : pgRound2 q = q := by
  obtain ⟨k, hk⟩ := h
  rw [pgRound2, hk, roundAwayZero_intCast,
    div_eq_iff (by norm_num : (100 : ℚ) ≠ 0)]
  exact hk.symm

theorem cent2_pgRound2 (q : ℚ) : cent2 (pgRound2 q) :=
  ⟨roundAwayZero (q * 100), by
    rw [pgRound2]
    exact div_mul_cancel₀ _ (by norm_num)⟩

theorem cent2_sub {a b : ℚ} (ha : cent2 a) (hb : cent2 b) : cent2 (a - b) := by
  obtain ⟨j, hj⟩ := ha
  obtain ⟨k, hk⟩ := hb
  refine ⟨j - k, ?_⟩
  push_cast
  rw [sub_mul, hj, hk]

theorem cent2_sum : ∀ (l : List ℚ), (∀ x ∈ l, cent2 x) → cent2 l.sum := by
  intro l
  induction l with
  | nil => exact fun _ => ⟨0, by norm_num⟩
  | cons x xs ih =>
    intro h
    obtain ⟨j, hj⟩ := h x (by simp)
    obtain ⟨k, hk⟩ := ih (fun y hy => h y (by simp [hy]))
    refine ⟨j + k, ?_⟩
    push_cast
    rw [List.sum_cons, add_mul, hj, hk]

theorem cent2_computeSubtotal {its : List LineItemInput}
    (h : ∀ li ∈ its, cent2 (li.quantity * li.unit_price)) :
    cent2 (computeSubtotal its) := by
  rw [computeSubtotal_eq_sum]
  apply cent2_sum
  intro x hx
  obtain ⟨li, hli, rfl⟩ := List.mem_map.1 hx
  exact h li hli

/-- The spec's commercial round-half-up coincides with the `numeric(10, 2)`
column rounding. -/
theorem round2_eq_pgRound2 (q : ℚ) : round2 q = pgRound2 q := by
  have hiff : 0 ≤ q * 100 ↔ 0 ≤ q := mul_nonneg_iff_of_pos_right (by norm_num)
  rw [round2, pgRound2, roundAwayZero]
  by_cases h : 0 ≤ q
  · rw [if_pos h, if_pos (hiff.2 h)]
  · rw [if_neg h, if_neg (fun hc => h (hiff.1 hc))]
    have he : -(q * 100) + 1 / 2 = -q * 100 + 1 / 2 := by ring
    rw [he]
    push_cast
    ring

/-- Storing the computed `total = discountedSubtotal + taxAmount` splits into
the stored discounted subtotal plus the stored tax, whenever the discounted
subtotal is a whole number of cents (the ties of the two roundings fall on the
same side because the two amounts share a sign). -/
theorem pgRound2_total_split {x : ℚ} (h : cent2 x) :
    pgRound2 (x + x * (11 / 100)) = x + pgRound2 (x * (11 / 100)) := by
  obtain ⟨k, hk⟩ := h
  have hx : x = (k : ℚ) / 100 := by
    rw [eq_div_iff (by norm_num : (100 : ℚ) ≠ 0)]
    exact hk
  have harg : (x + x * (11 / 100)) * 100 = (k : ℚ) + x * (11 / 100) * 100 := by
    rw [add_mul, hk]
  have hsign : (0 ≤ k ∧ 0 ≤ x * (11 / 100) * 100) ∨
      (k ≤ 0 ∧ x * (11 / 100) * 100 ≤ 0) := by
    by_cases hx0 : 0 ≤ x
    · refine Or.inl ⟨?_, by positivity⟩
      have : (0 : ℚ) ≤ (k : ℚ) := by rw [← hk]; positivity
      exact_mod_cast this
    · push_neg at hx0
      refine Or.inr ⟨?_, by nlinarith⟩
      have : (k : ℚ) ≤ 0 := by rw [← hk]; nlinarith
      exact_mod_cast this
  rw [pgRound2, harg, roundAwayZero_int_add k hsign, pgRound2]
  push_cast
  rw [hx]
  ring

theorem pgRound2_eval {q : ℚ} {k : ℤ} (h0 : 0 ≤ q * 100)
    (h1 : (k : ℚ) ≤ q * 100 + 1 / 2) (h2 : q * 100 + 1 / 2 < (k : ℚ) + 1) :
    pgRound2 q = (k : ℚ) / 100 := by
  rw [pgRound2, roundAwayZero, if_pos h0, Int.floor_eq_iff.2 ⟨h1, h2⟩]

theorem map_pgRound2_getD (o : Option ℚ) (d : ℚ) (h : cent2 (o.getD d)) :
    (o.map pgRound2).getD d = o.getD d := by
  cases o with
  | none => rfl
  | some a => exact show pgRound2 a = a from pgRound2_cent2 h

theorem mkLines_invoice_id {iid fid t : Nat} {its : List LineItemInput} :
    ∀ l ∈ mkLines iid fid its t, l.invoice_id = iid := by
  intro l hl
  obtain ⟨p, -, rfl⟩ := List.mem_map.1 hl
  rfl

theorem linesSubtotal_mkLines (iid fid t : Nat) (its : List LineItemInput) :
    linesSubtotal (mkLines iid fid its t) =
      (its.map (fun it => pgRound2 it.quantity * pgRound2 it.unit_price)).sum := by
  rw [linesSubtotal, mkLines, List.map_map]
  rw [show ((fun l : InvoiceLine => l.quantity * l.unit_price) ∘
      (fun p : Nat × LineItemInput =>
        ({ id := fid + p.1, invoice_id := iid, item_id := p.2.item_id,
           quantity := pgRound2 p.2.quantity, unit_price := pgRound2 p.2.unit_price,
           line_total := pgRound2 (p.2.quantity * p.2.unit_price),
           created_at := t } : InvoiceLine))) =
      ((fun it : LineItemInput => pgRound2 it.quantity * pgRound2 it.unit_price) ∘ Prod.snd)
    from rfl]
  rw [← List.map_map, List.enum_map_snd]

/-- With cent-grained inputs the stored lines carry the input quantities and
unit prices unchanged, so summing them over the new line set recovers the
computed subtotal. -/
theorem linesSubtotal_mkLines_cent (iid fid t : Nat) {its : List LineItemInput}
    (h : ∀ li ∈ its, cent2 li.quantity ∧ cent2 li.unit_price) :
    linesSubtotal (mkLines iid fid its t) = computeSubtotal its := by
  rw [linesSubtotal_mkLines, computeSubtotal_eq_sum]
  congr 1
  apply List.map_congr_left
  intro li hli
  rw [pgRound2_cent2 (h li hli).1, pgRound2_cent2 (h li hli).2]

theorem createInvoice_ok {s : Store} {input : CreateInvoiceInput} {clk : Clock}
    {inv : Invoice} {s' : Store}
    (h : createInvoice s input clk = .ok (inv, s')) :
    inv =
      { id := s.nextInvoiceId
        invoice_number :=
          allocateInvoiceNumber (s.invoices.map (·.invoice_number)) (monthCode clk)
        client_id := input.client_id
        invoice_date := input.invoice_date
        due_date := input.due_date
        subtotal := pgRound2 (computeSubtotal input.items)
        discount := pgRound2 input.discount
        tax_rate := 11 / 100
        tax_amount := pgRound2 ((computeSubtotal input.items - input.discount) * (11 / 100))
        total_amount :=
          pgRound2 (computeSubtotal input.items - input.discount +
            (computeSubtotal input.items - input.discount) * (11 / 100))
        status := .draft
        notes := input.notes
        created_at := clk.time
        updated_at := clk.time } ∧
    s' =
      { s with
          invoices := s.invoices ++ [inv]
          invoice_lines :=
            s.invoice_lines ++ mkLines s.nextInvoiceId s.nextLineId input.items clk.time
          nextInvoiceId := s.nextInvoiceId + 1
          nextLineId := s.nextLineId + input.items.length } := by
  simp only [createInvoice] at h
  split at h
  · exact absurd h (by simp)
  split at h
  · exact absurd h (by simp)
  simp only [Except.ok.injEq, Prod.mk.injEq] at h
  obtain ⟨h1, h2⟩ := h
  subst h1
  exact ⟨rfl, h2.symm⟩

theorem updateInvoice_ok_none {s : Store} {input : UpdateInvoiceInput} {clk : Clock}
    {old inv : Invoice} {s' : Store}
    (hold : findInvoice s input.id = some old)
    (hnone : input.items = none)
    (h : updateInvoice s input clk = .ok (inv, s')) :
    inv =
      { old with
          updated_at := clk.time
          client_id := input.client_id.getD old.client_id
          invoice_date := input.invoice_date.getD old.invoice_date
          due_date := input.due_date.getD old.due_date
          discount := (input.discount.map pgRound2).getD old.discount
          notes := input.notes.getD old.notes } ∧
    s' = { s with invoices := s.invoices.map (fun i => if i.id == input.id then inv else i) } := by
  simp only [updateInvoice, hold] at h
  split at h
  · exact absurd h (by simp)
  simp only [hnone, Except.ok.injEq, Prod.mk.injEq] at h
  obtain ⟨h1, h2⟩ := h
  subst h1
  exact ⟨rfl, h2.symm⟩

theorem updateInvoice_ok_some {s : Store} {input : UpdateInvoiceInput} {clk : Clock}
    {old inv : Invoice} {its : List LineItemInput} {s' : Store}
    (hold : findInvoice s input.id = some old)
    (hits : input.items = some its)
    (h : updateInvoice s input clk = .ok (inv, s')) :
    inv =
      { old with
          updated_at := clk.time
          client_id := input.client_id.getD old.client_id
          invoice_date := input.invoice_date.getD old.invoice_date
          due_date := input.due_date.getD old.due_date
          notes := input.notes.getD old.notes
          subtotal := pgRound2 (computeSubtotal its)
          discount := (input.discount.map pgRound2).getD old.discount
          tax_amount :=
            pgRound2 ((computeSubtotal its - input.discount.getD old.discount) * (11 / 100))
          total_amount :=
            pgRound2 (computeSubtotal its - input.discount.getD old.discount +
              (computeSubtotal its - input.discount.getD old.discount) * (11 / 100)) } ∧
    s' =
      { s with
          invoices := s.invoices.map (fun i => if i.id == input.id then inv else i)
          invoice_lines :=
            s.invoice_lines.filter (fun l => l.invoice_id != input.id)
              ++ mkLines input.id s.nextLineId its clk.time
          nextLineId := s.nextLineId + its.length } := by
  simp only [updateInvoice, hold] at h
  split at h
  · exact absurd h (by simp)
  simp only [hits] at h
  split at h
  · exact absurd h (by simp)
  simp only [Except.ok.injEq, Prod.mk.injEq] at h
  obtain ⟨h1, h2⟩ := h
  subst h1
  exact ⟨rfl, h2.symm⟩

theorem updateInvoiceStatus_ok {s : Store} {input : UpdateInvoiceStatusInput} {clk : Clock}
    {old inv : Invoice} {s' : Store}
    (hold : findInvoice s input.id = some old)
    (h : updateInvoiceStatus s input clk = .ok (inv, s')) :
    inv = { old with status := input.status, updated_at := clk.time } ∧
    s' = { s with invoices := s.invoices.map (fun i => if i.id == input.id then inv else i) } := by
  simp only [updateInvoiceStatus, hold, Except.ok.injEq, Prod.mk.injEq] at h
  obtain ⟨h1, h2⟩ := h
  subst h1
  exact ⟨rfl, h2.symm⟩

theorem updateInvoice_err_of_missing {s : Store} {input : UpdateInvoiceInput} {clk : Clock}
    (h : ∀ i ∈ s.invoices, i.id ≠ input.id) :
    updateInvoice s input clk = .error "Invoice not found" := by
  have : findInvoice s input.id = none := by
    rw [findInvoice, List.find?_eq_none]
    intro i hi
    simpa using h i hi
  rw [updateInvoice, this]

theorem updateInvoiceStatus_err_of_missing {s : Store} {input : UpdateInvoiceStatusInput}
    {clk : Clock} (h : ∀ i ∈ s.invoices, i.id ≠ input.id) :
    updateInvoiceStatus s input clk = .error "Invoice not found" := by
  have : findInvoice s input.id = none := by
    rw [findInvoice, List.find?_eq_none]
    intro i hi
    simpa using h i hi
  rw [updateInvoiceStatus, this]

end InvoiceApp

namespace InvoiceApp

/-! ## C4: deleteInvoice is non-throwing and idempotent on "not found" -/

/-- C4: `deleteInvoice(id)` never throws on a missing invoice: it removes the
invoice and all of its lines and returns success `true` exactly when an invoice
with that id existed, `false` otherwise; deleting twice yields `true` then
`false`; by contrast `updateInvoice` and `updateInvoiceStatus` fail with an
"Invoice not found" error for an unknown id. -/
theorem C4_delete_non_throwing (s : Store) (iid : Nat) :
    ((deleteInvoice s iid).1 = true ↔ ∃ i ∈ s.invoices, i.id = iid) ∧
    (deleteInvoice s iid).2.invoices = s.invoices.filter (fun i => i.id != iid) ∧
    (deleteInvoice s iid).2.invoice_lines =
      s.invoice_lines.filter (fun l => l.invoice_id != iid) ∧
    (deleteInvoice (deleteInvoice s iid).2 iid).1 = false ∧
    (∀ (input : UpdateInvoiceInput) (clk : Clock), input.id = iid →
      (∀ i ∈ s.invoices, i.id ≠ iid) →
      updateInvoice s input clk = .error "Invoice not found") ∧
    (∀ (input : UpdateInvoiceStatusInput) (clk : Clock), input.id = iid →
      (∀ i ∈ s.invoices, i.id ≠ iid) →
      updateInvoiceStatus s input clk = .error "Invoice not found") := by
  refine ⟨?_, rfl, rfl, ?_, ?_, ?_⟩
  · simp only [deleteInvoice, decide_eq_true_eq, List.length_pos, ne_eq,
      List.filter_eq_nil_iff, beq_iff_eq]
    push_neg
    constructor
    · rintro ⟨i, hi, he⟩
      exact ⟨i, hi, he⟩
    · rintro ⟨i, hi, he⟩
      exact ⟨i, hi, he⟩
  · have hf : List.filter (fun a => a.id == iid && a.id != iid) s.invoices = [] := by
      apply List.filter_eq_nil_iff.2
      intro a _
      by_cases h : a.id = iid <;> simp [h]
    simp [deleteInvoice, List.filter_filter, hf]
  · intro input clk hid hmiss
    exact updateInvoice_err_of_missing (by rw [hid]; exact hmiss)
  · intro input clk hid hmiss
    exact updateInvoiceStatus_err_of_missing (by rw [hid]; exact hmiss)

/-- Witness for C4 at a concrete store: deleting an existing invoice succeeds,
and the second delete of the same id reports failure without an exception. -/
theorem C4_witness :
    (deleteInvoice exStoreWithInv 0).1 = true ∧
    (deleteInvoice (deleteInvoice exStoreWithInv 0).2 0).1 = false := by
  have h := C4_delete_non_throwing exStoreWithInv 0
  exact ⟨h.1.mpr ⟨exInv, by simp [exStoreWithInv], rfl⟩, h.2.2.2.1⟩

/-! ## C8: deletion guards for clients and items -/

/-- C8: `deleteClient(id)` fails with a conflict error and deletes nothing when
any invoice references the client, and succeeds (removing the client) when no
invoice references an existing client; symmetrically for `deleteItem(id)` and
invoice lines. -/
theorem C8_deletion_guards (s : Store) (cid iid : Nat) :
    ((∃ i ∈ s.invoices, i.client_id = cid) →
      deleteClient s cid = .error "Cannot delete client with existing invoices") ∧
    ((∀ i ∈ s.invoices, i.client_id ≠ cid) → (∃ c ∈ s.clients, c.id = cid) →
      deleteClient s cid = .ok { s with clients := s.clients.filter (fun c => c.id != cid) }) ∧
    ((∃ l ∈ s.invoice_lines, l.item_id = iid) →
      deleteItem s iid = .error "Cannot delete item that is used in invoices") ∧
    ((∀ l ∈ s.invoice_lines, l.item_id ≠ iid) → (∃ it ∈ s.items, it.id = iid) →
      deleteItem s iid = .ok { s with items := s.items.filter (fun it => it.id != iid) }) := by
  refine ⟨?_, ?_, ?_, ?_⟩
  · rintro ⟨i, hi, he⟩
    have hcond : (s.invoices.filter (fun i => i.client_id == cid)).length > 0 := by
      refine List.length_pos.2 ?_
      intro hnil
      have hm : i ∈ s.invoices.filter (fun i => i.client_id == cid) :=
        List.mem_filter.2 ⟨hi, by simp [he]⟩
      rw [hnil] at hm
      simp at hm
    rw [deleteClient, if_pos hcond]
  · rintro hnone ⟨c, hc, he⟩
    have hcond1 : ¬ (s.invoices.filter (fun i => i.client_id == cid)).length > 0 := by
      simp only [gt_iff_lt, List.length_pos, ne_eq, not_not]
      apply List.filter_eq_nil_iff.2
      intro i hi
      simp [hnone i hi]
    have hcond2 : ¬ (s.clients.filter (fun c => c.id == cid)).isEmpty = true := by
      rw [List.isEmpty_iff]
      intro hemp
      rw [List.filter_eq_nil_iff] at hemp
      exact hemp c hc (by simp [he])
    rw [deleteClient, if_neg hcond1, if_neg hcond2]
  · rintro ⟨l, hl, he⟩
    have hm : l ∈ s.invoice_lines.filter (fun l => l.item_id == iid) :=
      List.mem_filter.2 ⟨hl, by simp [he]⟩
    have hbool : (s.invoice_lines.filter (fun l => l.item_id == iid)).isEmpty = false := by
      rw [← Bool.not_eq_true, List.isEmpty_iff]
      exact List.ne_nil_of_mem hm
    rw [deleteItem, if_pos (by rw [hbool]; rfl)]
  · rintro hnone ⟨it, hit, he⟩
    have h1 : s.invoice_lines.filter (fun l => l.item_id == iid) = [] := by
      apply List.filter_eq_nil_iff.2
      intro l hl
      simp [hnone l hl]
    have hcond2 : ¬ (s.items.filter (fun it => it.id == iid)).isEmpty = true := by
      rw [List.isEmpty_iff]
      intro hemp
      rw [List.filter_eq_nil_iff] at hemp
      exact hemp it hit (by simp [he])
    rw [deleteItem, if_neg (by simp [h1]), if_neg hcond2]

/-- Witness for C8: in a store whose only invoice references client 1 and whose
lines use items 1 and 2, deleting client 1 or item 1 is blocked; in the store
without invoices both deletions succeed. -/
theorem C8_witness :
    deleteClient exStoreWithInv 1 = .error "Cannot delete client with existing invoices" ∧
    deleteItem exStoreWithInv 1 = .error "Cannot delete item that is used in invoices" ∧
    deleteClient exStore 1 =
      .ok { exStore with clients := exStore.clients.filter (fun c => c.id != 1) } ∧
    deleteItem exStore 2 =
      .ok { exStore with items := exStore.items.filter (fun it => it.id != 2) } := by
  refine ⟨?_, ?_, ?_, ?_⟩
  · exact (C8_deletion_guards exStoreWithInv 1 1).1 ⟨exInv, by simp [exStoreWithInv], rfl⟩
  · exact (C8_deletion_guards exStoreWithInv 1 1).2.2.1 ⟨exLine1, by simp [exStoreWithInv], rfl⟩
  · exact (C8_deletion_guards exStore 1 1).2.1 (by simp [exStore])
      ⟨exClient, by simp [exStore], rfl⟩
  · exact (C8_deletion_guards exStore 1 2).2.2.2 (by simp [exStore])
      ⟨exItem2, by simp [exStore], rfl⟩

/-! ## C7: reference validation rejects duplicate item ids (code bug) -/

/-- C7: the claim says validation treats the item-id list as a set, so an input
whose ids all resolve passes even with duplicates.  The code instead compares
the number of fetched rows with the number of requested ids
(`items.length !== itemIds.length`), so a duplicate id makes the count come up
short and `createInvoice` throws "One or more items not found" even though
every id resolves to an existing item — the error message contradicts the
actual situation. -/
theorem C7_duplicate_ids_spuriously_rejected :
    createInvoice exStore dupItemsInput exClock = .error "One or more items not found" ∧
    (∀ li ∈ dupItemsInput.items, ∃ it ∈ exStore.items, it.id = li.item_id) := by
  constructor
  · rfl
  · intro li hli
    have hmem : li = (⟨1, 1, 2⟩ : LineItemInput) ∨ li = ⟨1, 3, 2⟩ := by
      simpa [dupItemsInput] using hli
    rcases hmem with rfl | rfl
    · exact ⟨exItem1, by simp [exStore], rfl⟩
    · exact ⟨exItem1, by simp [exStore], rfl⟩

end InvoiceApp

namespace InvoiceApp

/-! ## C5: partial-update frame conditions -/

theorem mem_update_map {l : List Invoice} {iid : Nat} {old new : Invoice}
    (hmem : old ∈ l) (hid : (old.id == iid) = true) :
    new ∈ l.map (fun i => if i.id == iid then new else i) :=
  List.mem_map.2 ⟨old, hmem, by simp [hid]⟩

/-- C5: on a successful `updateInvoice`, every field omitted from the payload
keeps its stored value (in particular a notes-only payload leaves `client_id`,
dates, `discount` and all three derived totals untouched), `updated_at` is set
to the call time (hence advances whenever the clock does), and
`invoice_number` is never changed; the returned invoice is the persisted
one. -/
theorem C5_update_partial_frame (s : Store) (input : UpdateInvoiceInput) (clk : Clock)
    (old inv : Invoice) (s' : Store)
    (hold : findInvoice s input.id = some old)
    (h : updateInvoice s input clk = .ok (inv, s')) :
    (input.client_id = none → inv.client_id = old.client_id) ∧
    (input.invoice_date = none → inv.invoice_date = old.invoice_date) ∧
    (input.due_date = none → inv.due_date = old.due_date) ∧
    (input.discount = none → inv.discount = old.discount) ∧
    (input.notes = none → inv.notes = old.notes) ∧
    (input.items = none →
      inv.subtotal = old.subtotal ∧ inv.tax_amount = old.tax_amount ∧
      inv.total_amount = old.total_amount) ∧
    inv.updated_at = clk.time ∧
    (old.updated_at < clk.time → old.updated_at < inv.updated_at) ∧
    inv.invoice_number = old.invoice_number ∧
    inv ∈ s'.invoices := by
  have hold' : s.invoices.find? (fun i => i.id == input.id) = some old := hold
  have hmem : old ∈ s.invoices := List.mem_of_find?_eq_some hold'
  have hbeq : (old.id == input.id) = true := by simpa using List.find?_some hold'
  cases hits : input.items with
  | none =>
    obtain ⟨h1, h2⟩ := updateInvoice_ok_none hold hits h
    subst h1
    subst h2
    refine ⟨?_, ?_, ?_, ?_, ?_, ?_, rfl, ?_, rfl, ?_⟩
    · intro hc; simp [hc]
    · intro hc; simp [hc]
    · intro hc; simp [hc]
    · intro hc; simp [hc]
    · intro hc; simp [hc]
    · intro _; exact ⟨rfl, rfl, rfl⟩
    · intro hlt; exact hlt
    · exact mem_update_map hmem hbeq
  | some its =>
    obtain ⟨h1, h2⟩ := updateInvoice_ok_some hold hits h
    subst h1
    subst h2
    refine ⟨?_, ?_, ?_, ?_, ?_, ?_, rfl, ?_, rfl, ?_⟩
    · intro hc; simp [hc]
    · intro hc; simp [hc]
    · intro hc; simp [hc]
    · intro hc; simp [hc]
    · intro hc; simp [hc]
    · intro hc; simp at hc
    · intro hlt; exact hlt
    · exact mem_update_map hmem hbeq

/-- Witness for C5: a notes-only update of the example invoice leaves all other
fields (including the derived totals and the invoice number) unchanged and
advances `updated_at`. -/
theorem C5_witness :
    c5inv.client_id = exInv.client_id ∧ c5inv.invoice_date = exInv.invoice_date ∧
    c5inv.due_date = exInv.due_date ∧ c5inv.discount = exInv.discount ∧
    c5inv.subtotal = exInv.subtotal ∧ c5inv.tax_amount = exInv.tax_amount ∧
    c5inv.total_amount = exInv.total_amount ∧
    c5inv.updated_at = exClock2.time ∧ exInv.updated_at < c5inv.updated_at ∧
    c5inv.invoice_number = exInv.invoice_number ∧ c5inv ∈ c5post.invoices := by
  have h := C5_update_partial_frame exStoreWithInv c5input exClock2 exInv c5inv c5post rfl rfl
  obtain ⟨h1, h2, h3, h4, _h5, h6, h7, h8, h9, h10⟩ := h
  have h6' := h6 rfl
  exact ⟨h1 rfl, h2 rfl, h3 rfl, h4 rfl, h6'.1, h6'.2.1, h6'.2.2, h7,
    h8 (by decide), h9, h10⟩

/-! ## C1: totals formulas (computed exactly, rounded by the storage columns) -/

/-- C1 (amended): on every successful invoice create — and every successful
update that supplies `items[]` — the persisted and returned totals are the
`numeric(10, 2)` column roundings of the computed values
`subtotal = Σ quantity × unit_price`, `tax = (subtotal − discount) × 0.11` and
`total = subtotal − discount + tax` (an update uses the supplied discount or
else the previously stored one); when every line's `quantity × unit_price`
and the discount are whole numbers of cents, this gives exactly the claimed
`subtotal = Σ q × p`, `tax_amount = round2((subtotal − discount) × 0.11)` and
`total_amount = subtotal − discount + tax_amount`. -/
theorem C1_totals_formula :
    (∀ (s : Store) (input : CreateInvoiceInput) (clk : Clock) (inv : Invoice) (s' : Store),
      createInvoice s input clk = .ok (inv, s') →
      (inv.subtotal =
          pgRound2 ((input.items.map (fun it => it.quantity * it.unit_price)).sum) ∧
        inv.discount = pgRound2 input.discount ∧
        inv.tax_amount =
          pgRound2 (((input.items.map (fun it => it.quantity * it.unit_price)).sum -
            input.discount) * (11 / 100)) ∧
        inv.total_amount =
          pgRound2 ((input.items.map (fun it => it.quantity * it.unit_price)).sum -
            input.discount +
            ((input.items.map (fun it => it.quantity * it.unit_price)).sum -
              input.discount) * (11 / 100)) ∧
        inv ∈ s'.invoices) ∧
      ((∀ li ∈ input.items, cent2 (li.quantity * li.unit_price)) → cent2 input.discount →
        inv.subtotal = (input.items.map (fun it => it.quantity * it.unit_price)).sum ∧
        inv.discount = input.discount ∧
        inv.tax_amount = round2 ((inv.subtotal - inv.discount) * (11 / 100)) ∧
        inv.total_amount = inv.subtotal - inv.discount + inv.tax_amount)) ∧
    (∀ (s : Store) (input : UpdateInvoiceInput) (clk : Clock) (old : Invoice)
      (its : List LineItemInput) (inv : Invoice) (s' : Store),
      findInvoice s input.id = some old → input.items = some its →
      updateInvoice s input clk = .ok (inv, s') →
      (inv.subtotal = pgRound2 ((its.map (fun it => it.quantity * it.unit_price)).sum) ∧
        inv.discount = (input.discount.map pgRound2).getD old.discount ∧
        inv.tax_amount =
          pgRound2 (((its.map (fun it => it.quantity * it.unit_price)).sum -
            input.discount.getD old.discount) * (11 / 100)) ∧
        inv.total_amount =
          pgRound2 ((its.map (fun it => it.quantity * it.unit_price)).sum -
            input.discount.getD old.discount +
            ((its.map (fun it => it.quantity * it.unit_price)).sum -
              input.discount.getD old.discount) * (11 / 100)) ∧
        inv ∈ s'.invoices) ∧
      ((∀ li ∈ its, cent2 (li.quantity * li.unit_price)) →
        cent2 (input.discount.getD old.discount) →
        inv.subtotal = (its.map (fun it => it.quantity * it.unit_price)).sum ∧
        inv.discount = input.discount.getD old.discount ∧
        inv.tax_amount = round2 ((inv.subtotal - inv.discount) * (11 / 100)) ∧
        inv.total_amount = inv.subtotal - inv.discount + inv.tax_amount)) := by
  constructor
  · intro s input clk inv s' h
    obtain ⟨h1, h2⟩ := createInvoice_ok h
    have hmem : inv ∈ s'.invoices := by rw [h2]; simp
    have hsub : inv.subtotal = pgRound2 (computeSubtotal input.items) := by rw [h1]
    have hdisc : inv.discount = pgRound2 input.discount := by rw [h1]
    have htax : inv.tax_amount =
        pgRound2 ((computeSubtotal input.items - input.discount) * (11 / 100)) := by rw [h1]
    have htot : inv.total_amount =
        pgRound2 (computeSubtotal input.items - input.discount +
          (computeSubtotal input.items - input.discount) * (11 / 100)) := by rw [h1]
    refine ⟨⟨?_, hdisc, ?_, ?_, hmem⟩, ?_⟩
    · rw [hsub, computeSubtotal_eq_sum]
    · rw [htax, computeSubtotal_eq_sum]
    · rw [htot, computeSubtotal_eq_sum]
    · intro hli hd
      have hS : cent2 (computeSubtotal input.items) := cent2_computeSubtotal hli
      have hx : cent2 (computeSubtotal input.items - input.discount) := cent2_sub hS hd
      have hsub' : inv.subtotal = computeSubtotal input.items := by
        rw [hsub, pgRound2_cent2 hS]
      have hdisc' : inv.discount = input.discount := by
        rw [hdisc, pgRound2_cent2 hd]
      refine ⟨by rw [hsub', computeSubtotal_eq_sum], hdisc', ?_, ?_⟩
      · rw [htax, hsub', hdisc', round2_eq_pgRound2]
      · rw [htot, hsub', hdisc', htax]
        exact pgRound2_total_split hx
  · intro s input clk old its inv s' hold hits h
    have hold' : s.invoices.find? (fun i => i.id == input.id) = some old := hold
    have hmemold : old ∈ s.invoices := List.mem_of_find?_eq_some hold'
    have hbeq : (old.id == input.id) = true := by simpa using List.find?_some hold'
    obtain ⟨h1, h2⟩ := updateInvoice_ok_some hold hits h
    have hmem : inv ∈ s'.invoices := by
      rw [h2]
      exact mem_update_map hmemold hbeq
    have hsub : inv.subtotal = pgRound2 (computeSubtotal its) := by rw [h1]
    have hdisc : inv.discount = (input.discount.map pgRound2).getD old.discount := by rw [h1]
    have htax : inv.tax_amount =
        pgRound2 ((computeSubtotal its - input.discount.getD old.discount) * (11 / 100)) := by
      rw [h1]
    have htot : inv.total_amount =
        pgRound2 (computeSubtotal its - input.discount.getD old.discount +
          (computeSubtotal its - input.discount.getD old.discount) * (11 / 100)) := by
      rw [h1]
    refine ⟨⟨?_, hdisc, ?_, ?_, hmem⟩, ?_⟩
    · rw [hsub, computeSubtotal_eq_sum]
    · rw [htax, computeSubtotal_eq_sum]
    · rw [htot, computeSubtotal_eq_sum]
    · intro hli hd
      have hS : cent2 (computeSubtotal its) := cent2_computeSubtotal hli
      have hx : cent2 (computeSubtotal its - input.discount.getD old.discount) :=
        cent2_sub hS hd
      have hsub' : inv.subtotal = computeSubtotal its := by
        rw [hsub, pgRound2_cent2 hS]
      have hdisc' : inv.discount = input.discount.getD old.discount := by
        rw [hdisc, map_pgRound2_getD _ _ hd]
      refine ⟨by rw [hsub', computeSubtotal_eq_sum], hdisc', ?_, ?_⟩
      · rw [htax, hsub', hdisc', round2_eq_pgRound2]
      · rw [htot, hsub', hdisc', htax]
        exact pgRound2_total_split hx

/-- C1 counterexample to the claim as stated: a schema-valid line of
`1 × 0.0454` is rounded by the `numeric(10, 2)` subtotal column — the stored
and returned `subtotal` is `0.05`, not the claim's
`Σ quantity × unit_price = 0.0454`. -/
theorem C1_counterexample :
    ∃ inv s', createInvoice exStore c1subcentInput exClock = .ok (inv, s') ∧
      inv.subtotal = 1 / 20 ∧
      (c1subcentInput.items.map (fun it => it.quantity * it.unit_price)).sum = 227 / 5000 ∧
      (1 / 20 : ℚ) ≠ 227 / 5000 := by
  obtain ⟨inv, s', hok⟩ :
      ∃ inv s', createInvoice exStore c1subcentInput exClock = .ok (inv, s') := by
    simp only [createInvoice, findClient, findItemRows]
    rw [if_neg (by decide), if_neg (by decide)]
    exact ⟨_, _, rfl⟩
  obtain ⟨h1, -⟩ := createInvoice_ok hok
  refine ⟨inv, s', hok, ?_, by norm_num [c1subcentInput], by norm_num⟩
  have hsub : inv.subtotal = pgRound2 (computeSubtotal c1subcentInput.items) := by rw [h1]
  have hcs : computeSubtotal c1subcentInput.items = 227 / 5000 := by
    norm_num [computeSubtotal, c1subcentInput]
  have he : pgRound2 (227 / 5000 : ℚ) = ((5 : ℤ) : ℚ) / 100 :=
    pgRound2_eval (by norm_num) (by norm_num) (by norm_num)
  rw [hsub, hcs, he]
  norm_num

/-- Witness for C1 at the spec's own example: items `{2 × 10.00, 1 × 15.00}`
with discount `5.00` give subtotal `35.00`, tax `3.30` (equal to the spec's
`round2((35 − 5) × 0.11)`), total `33.30`. -/
theorem C1_witness :
    ∃ inv s', createInvoice exStore c1exInput exClock = .ok (inv, s') ∧
      inv.subtotal = 35 ∧ inv.discount = 5 ∧ inv.tax_amount = 33 / 10 ∧
      inv.total_amount = 333 / 10 ∧
      inv.tax_amount = round2 ((inv.subtotal - inv.discount) * (11 / 100)) ∧
      inv ∈ s'.invoices := by
  obtain ⟨inv, s', hok⟩ :
      ∃ inv s', createInvoice exStore c1exInput exClock = .ok (inv, s') := by
    simp only [createInvoice, findClient, findItemRows]
    rw [if_neg (by decide), if_neg (by decide)]
    exact ⟨_, _, rfl⟩
  have hmem := (C1_totals_formula.1 exStore c1exInput exClock inv s' hok).1.2.2.2.2
  have h := (C1_totals_formula.1 exStore c1exInput exClock inv s' hok).2
    (by
      intro li hli
      have hcases : li = (⟨1, 2, 10⟩ : LineItemInput) ∨ li = ⟨2, 1, 15⟩ := by
        simpa [c1exInput] using hli
      rcases hcases with rfl | rfl
      · exact ⟨2000, by norm_num⟩
      · exact ⟨1500, by norm_num⟩)
    ⟨500, by norm_num [c1exInput]⟩
  obtain ⟨hsub, hdisc, htax, htot⟩ := h
  have hsub35 : inv.subtotal = 35 := by rw [hsub]; norm_num [c1exInput]
  have hdisc5 : inv.discount = 5 := by rw [hdisc]; norm_num [c1exInput]
  have htaxv : inv.tax_amount = 33 / 10 := by
    rw [htax, hsub35, hdisc5, round2_eq_pgRound2]
    have he : ((35 : ℚ) - 5) * (11 / 100) = 33 / 10 := by norm_num
    rw [he, pgRound2_cent2 ⟨330, by norm_num⟩]
  have htotv : inv.total_amount = 333 / 10 := by
    rw [htot, hsub35, hdisc5, htaxv]
    norm_num
  exact ⟨inv, s', hok, hsub35, hdisc5, htaxv, htotv, htax, hmem⟩

end InvoiceApp

namespace InvoiceApp

/-! ## C6: items[] replacement semantics on update -/

theorem findItemRows_length_eq (s : Store) (ids : List Nat)
    (hnd : ids.Nodup)
    (hsub : ∀ i ∈ ids, ∃ it ∈ s.items, it.id = i)
    (hitems : (s.items.map (·.id)).Nodup) :
    (findItemRows s ids).length = ids.length := by
  have hsl : ((findItemRows s ids).map (·.id)).Nodup :=
    hitems.sublist ((List.filter_sublist _).map _)
  have hmemiff : ∀ x, x ∈ (findItemRows s ids).map (·.id) ↔ x ∈ ids := by
    intro x
    constructor
    · intro hx
      obtain ⟨it, hit, rfl⟩ := List.mem_map.1 hx
      exact List.elem_iff.1 (List.mem_filter.1 hit).2
    · intro hx
      obtain ⟨it, hit, he⟩ := hsub x hx
      refine List.mem_map.2 ⟨it, List.mem_filter.2 ⟨hit, ?_⟩, he⟩
      exact List.elem_iff.2 (he ▸ hx)
  have hperm := (List.perm_ext_iff_of_nodup hsl hnd).2 hmemiff
  simpa using hperm.length_eq

/-- C6 (amended): an `updateInvoice` on an existing invoice that supplies
`items[]` with pairwise-distinct item ids, all of which resolve to existing
items (and whose `client_id`, when supplied, also resolves), succeeds and:
deletes the invoice's entire previous line set and replaces it with lines
derived from the supplied items (every surviving line of this invoice is a
new one), and recomputes `subtotal`, `tax_amount`, `total_amount` from the
new items only, storing the `numeric(10, 2)` roundings of the computed
values, with the supplied discount or else the stored one; when the supplied
money is cent-grained, each new line has `line_total = quantity × unit_price`
and the totals take the claimed exact forms. -/
theorem C6_items_replacement (s : Store) (input : UpdateInvoiceInput) (clk : Clock)
    (old : Invoice) (its : List LineItemInput)
    (hold : findInvoice s input.id = some old)
    (hits : input.items = some its)
    (hnd : (its.map (·.item_id)).Nodup)
    (hres : ∀ li ∈ its, ∃ it ∈ s.items, it.id = li.item_id)
    (hitems : (s.items.map (·.id)).Nodup)
    (hcl : ∀ cid, input.client_id = some cid →
      cid = old.client_id ∨ (findClient s cid).isSome = true) :
    ∃ inv s', updateInvoice s input clk = .ok (inv, s') ∧
      s'.invoice_lines =
        s.invoice_lines.filter (fun l => l.invoice_id != input.id)
          ++ mkLines input.id s.nextLineId its clk.time ∧
      (∀ l ∈ s'.invoice_lines, l.invoice_id = input.id →
        l ∈ mkLines input.id s.nextLineId its clk.time) ∧
      (∀ l ∈ mkLines input.id s.nextLineId its clk.time, l.invoice_id = input.id) ∧
      inv.subtotal = pgRound2 ((its.map (fun it => it.quantity * it.unit_price)).sum) ∧
      inv.discount = (input.discount.map pgRound2).getD old.discount ∧
      inv.tax_amount =
        pgRound2 (((its.map (fun it => it.quantity * it.unit_price)).sum -
          input.discount.getD old.discount) * (11 / 100)) ∧
      inv.total_amount =
        pgRound2 ((its.map (fun it => it.quantity * it.unit_price)).sum -
          input.discount.getD old.discount +
          ((its.map (fun it => it.quantity * it.unit_price)).sum -
            input.discount.getD old.discount) * (11 / 100)) ∧
      inv ∈ s'.invoices ∧
      ((∀ li ∈ its, centItem li) → cent2 (input.discount.getD old.discount) →
        (∀ l ∈ mkLines input.id s.nextLineId its clk.time,
          l.line_total = l.quantity * l.unit_price) ∧
        inv.subtotal = (its.map (fun it => it.quantity * it.unit_price)).sum ∧
        inv.discount = input.discount.getD old.discount ∧
        inv.tax_amount = pgRound2 ((inv.subtotal - inv.discount) * (11 / 100)) ∧
        inv.total_amount = inv.subtotal - inv.discount + inv.tax_amount) := by
  have hold' : s.invoices.find? (fun i => i.id == input.id) = some old := hold
  have hmem : old ∈ s.invoices := List.mem_of_find?_eq_some hold'
  have hbeq : (old.id == input.id) = true := by simpa using List.find?_some hold'
  have hoid : old.id = input.id := by simpa using hbeq
  have hlen := findItemRows_length_eq s (its.map (·.item_id)) hnd
    (by
      intro i hi
      obtain ⟨li, hli, rfl⟩ := List.mem_map.1 hi
      exact hres li hli)
    hitems
  obtain ⟨inv, s', hok⟩ : ∃ inv s', updateInvoice s input clk = .ok (inv, s') := by
    cases hcid : input.client_id with
    | none =>
      simp only [updateInvoice, hold, hcid, hits]
      rw [if_neg (by simp), if_neg (by simp [hlen])]
      exact ⟨_, _, rfl⟩
    | some cid =>
      have hcm : (cid != old.client_id && (findClient s cid).isNone) = false := by
        rcases hcl cid hcid with he | hsome
        · simp [he]
        · rw [Option.isSome_iff_exists] at hsome
          obtain ⟨c, hc⟩ := hsome
          simp [hc]
      simp only [updateInvoice, hold, hcid, hits]
      rw [if_neg (by simp [hcm]), if_neg (by simp [hlen])]
      exact ⟨_, _, rfl⟩
  obtain ⟨h1, h2⟩ := updateInvoice_ok_some hold hits hok
  have hsub : inv.subtotal = pgRound2 (computeSubtotal its) := by rw [h1]
  have hdisc : inv.discount = (input.discount.map pgRound2).getD old.discount := by rw [h1]
  have htax : inv.tax_amount =
      pgRound2 ((computeSubtotal its - input.discount.getD old.discount) * (11 / 100)) := by
    rw [h1]
  have htot : inv.total_amount =
      pgRound2 (computeSubtotal its - input.discount.getD old.discount +
        (computeSubtotal its - input.discount.getD old.discount) * (11 / 100)) := by
    rw [h1]
  refine ⟨inv, s', hok, ?_, ?_, ?_, ?_, hdisc, ?_, ?_, ?_, ?_⟩
  · rw [h2]
  · intro l hl hlid
    rw [h2] at hl
    rcases List.mem_append.1 hl with hl | hl
    · have := (List.mem_filter.1 hl).2
      rw [hlid] at this
      simp at this
    · exact hl
  · intro l hl
    exact mkLines_invoice_id l hl
  · rw [hsub, computeSubtotal_eq_sum]
  · rw [htax, computeSubtotal_eq_sum]
  · rw [htot, computeSubtotal_eq_sum]
  · rw [h2]
    exact mem_update_map hmem hbeq
  · intro hli hd
    have hS : cent2 (computeSubtotal its) :=
      cent2_computeSubtotal (fun li h => (hli li h).2.2)
    have hx : cent2 (computeSubtotal its - input.discount.getD old.discount) :=
      cent2_sub hS hd
    have hsub' : inv.subtotal = computeSubtotal its := by
      rw [hsub, pgRound2_cent2 hS]
    have hdisc' : inv.discount = input.discount.getD old.discount := by
      rw [hdisc, map_pgRound2_getD _ _ hd]
    refine ⟨?_, by rw [hsub', computeSubtotal_eq_sum], hdisc', ?_, ?_⟩
    · intro l hl
      obtain ⟨p, hp, rfl⟩ := List.mem_map.1 hl
      have hp2 : p.2 ∈ its := by
        rw [← List.enum_map_snd its]
        exact List.mem_map_of_mem Prod.snd hp
      obtain ⟨hq, hpz, hqp⟩ := hli p.2 hp2
      show pgRound2 (p.2.quantity * p.2.unit_price) =
        pgRound2 p.2.quantity * pgRound2 p.2.unit_price
      rw [pgRound2_cent2 hqp, pgRound2_cent2 hq, pgRound2_cent2 hpz]
    · rw [htax, hsub', hdisc']
    · rw [htot, hsub', hdisc', htax]
      exact pgRound2_total_split hx

/-- C6 counterexample to the claim as stated: an update whose `items[]` contains
the same (existing) item id twice does not replace the lines — it throws
"One or more items not found" and leaves the store untouched. -/
theorem C6_counterexample :
    updateInvoice exStoreWithInv
        ⟨0, none, none, none, none, none, some [⟨1, 1, 2⟩, ⟨1, 2, 2⟩]⟩ exClock2 =
      .error "One or more items not found" ∧
    (∀ li ∈ [(⟨1, 1, 2⟩ : LineItemInput), ⟨1, 2, 2⟩], ∃ it ∈ exStoreWithInv.items,
      it.id = li.item_id) ∧
    (∃ i ∈ exStoreWithInv.invoices, i.id = 0) := by
  refine ⟨rfl, ?_, ⟨exInv, by simp [exStoreWithInv], rfl⟩⟩
  intro li hli
  have hmem : li = (⟨1, 1, 2⟩ : LineItemInput) ∨ li = ⟨1, 2, 2⟩ := by simpa using hli
  rcases hmem with rfl | rfl
  · exact ⟨exItem1, by simp [exStoreWithInv], rfl⟩
  · exact ⟨exItem1, by simp [exStoreWithInv], rfl⟩

/-- Witness for C6: replacing the example invoice's two lines with a single
`3 × 10.00` line (no discount supplied) yields exactly the new line set, and
(the inputs being whole cents) totals recomputed with the stored discount
5.00: subtotal 30, tax 2.75, total 27.75. -/
theorem C6_witness :
    ∃ inv s',
      updateInvoice exStoreWithInv ⟨0, none, none, none, none, none, some [⟨1, 3, 10⟩]⟩
          exClock2 = .ok (inv, s') ∧
      s'.invoice_lines =
        exStoreWithInv.invoice_lines.filter (fun l => l.invoice_id != 0)
          ++ mkLines 0 exStoreWithInv.nextLineId [⟨1, 3, 10⟩] exClock2.time ∧
      (∀ l ∈ s'.invoice_lines, l.invoice_id = 0 →
        l ∈ mkLines 0 exStoreWithInv.nextLineId [⟨1, 3, 10⟩] exClock2.time) ∧
      (∀ l ∈ mkLines 0 exStoreWithInv.nextLineId [⟨1, 3, 10⟩] exClock2.time,
        l.line_total = l.quantity * l.unit_price) ∧
      inv.subtotal = 30 ∧ inv.discount = 5 ∧ inv.tax_amount = 11 / 4 ∧
      inv.total_amount = 111 / 4 ∧
      inv ∈ s'.invoices := by
  obtain ⟨inv, s', hok, hlines, honly, -, -, -, -, -, hmem, himp⟩ :=
    C6_items_replacement exStoreWithInv
      ⟨0, none, none, none, none, none, some [⟨1, 3, 10⟩]⟩ exClock2 exInv [⟨1, 3, 10⟩]
      rfl rfl (by simp)
      (by
        intro li hli
        have hone : li = (⟨1, 3, 10⟩ : LineItemInput) := by simpa using hli
        subst hone
        exact ⟨exItem1, by simp [exStoreWithInv], rfl⟩)
      (by simp [exStoreWithInv, exItem1, exItem2])
      (by intro cid hcid; exact absurd hcid (by simp))
  obtain ⟨hlt, hsub, hdisc, htax, htot⟩ := himp
    (by
      intro li hli
      have hone : li = (⟨1, 3, 10⟩ : LineItemInput) := by simpa using hli
      subst hone
      exact ⟨⟨300, by norm_num⟩, ⟨1000, by norm_num⟩, ⟨3000, by norm_num⟩⟩)
    ⟨500, by norm_num [exInv]⟩
  have hsub30 : inv.subtotal = 30 := by rw [hsub]; norm_num
  have hdisc5 : inv.discount = 5 := by rw [hdisc]; norm_num [exInv]
  have htaxv : inv.tax_amount = 11 / 4 := by
    rw [htax, hsub30, hdisc5, show ((30 : ℚ) - 5) * (11 / 100) = 11 / 4 by norm_num,
      pgRound2_cent2 ⟨275, by norm_num⟩]
  have htotv : inv.total_amount = 111 / 4 := by
    rw [htot, hsub30, hdisc5, htaxv]
    norm_num
  exact ⟨inv, s', hok, hlines, honly, hlt, hsub30, hdisc5, htaxv, htotv, hmem⟩

end InvoiceApp

namespace InvoiceApp

/-! ## C9: getInvoices — conjunctive filter, search, ordering -/

theorem clientNameCond_iff (s : Store) (cid : Nat) (q : String)
    (hcl : (s.clients.map (·.id)).Nodup) :
    clientNameCond s cid q = true ↔
      ∃ c ∈ s.clients, c.id = cid ∧ likeContainsPat q c.name = true := by
  cases hfc : findClient s cid with
  | none =>
    have hfc' : s.clients.find? (fun c => c.id == cid) = none := hfc
    simp only [clientNameCond, hfc, Bool.false_eq_true, false_iff]
    rintro ⟨c, hc, hid, -⟩
    have := List.find?_eq_none.1 hfc' c hc
    simp [hid] at this
  | some c =>
    have hfc' : s.clients.find? (fun c => c.id == cid) = some c := hfc
    have hcmem : c ∈ s.clients := List.mem_of_find?_eq_some hfc'
    have hcid : c.id = cid := by simpa using List.find?_some hfc'
    simp only [clientNameCond, hfc]
    constructor
    · intro h
      exact ⟨c, hcmem, hcid, h⟩
    · rintro ⟨c', hc', hid', hinf⟩
      have he : c' = c :=
        List.inj_on_of_nodup_map hcl hc' hcmem (by rw [hid', hcid])
      rw [← he]
      exact hinf

theorem statusCond_iff (o : Option InvoiceStatus) (inv : Invoice) :
    statusCond o inv = true ↔ (∀ st, o = some st → inv.status = st) := by
  cases o <;> simp [statusCond]

theorem clientCond_iff (o : Option Nat) (inv : Invoice) :
    clientCond o inv = true ↔ (∀ cid, o = some cid → inv.client_id = cid) := by
  cases o <;> simp [clientCond]

theorem searchCond_iff (s : Store) (o : Option String) (inv : Invoice)
    (hcl : (s.clients.map (·.id)).Nodup) :
    searchCond s o inv = true ↔
      (∀ q, o = some q →
        (likeContainsPat q inv.invoice_number = true ∨
          ∃ c ∈ s.clients, c.id = inv.client_id ∧ likeContainsPat q c.name = true)) := by
  cases o with
  | none => simp [searchCond]
  | some q =>
    simp only [searchCond, Bool.or_eq_true,
      clientNameCond_iff s inv.client_id q hcl]
    constructor
    · rintro h q' hq'
      rw [Option.some.injEq] at hq'
      rw [← hq']
      exact h
    · intro h
      exact h q rfl

theorem invoiceMatches_iff (s : Store) (f : InvoiceFilter) (inv : Invoice)
    (hcl : (s.clients.map (·.id)).Nodup) :
    invoiceMatches s f inv = true ↔
      (∀ st, f.status = some st → inv.status = st) ∧
      (∀ cid, f.client_id = some cid → inv.client_id = cid) ∧
      (∀ q, f.search = some q →
        (likeContainsPat q inv.invoice_number = true ∨
          ∃ c ∈ s.clients, c.id = inv.client_id ∧ likeContainsPat q c.name = true)) := by
  rw [invoiceMatches, Bool.and_eq_true, Bool.and_eq_true,
    statusCond_iff, clientCond_iff, searchCond_iff s f.search inv hcl]
  exact and_assoc

/-- C9 (amended): `getInvoices(filter)` returns exactly the invoices satisfying
the conjunction of the optional criteria — status equality, client_id
equality, and search, where the search string `s` is interpreted as the
case-SENSITIVE SQL `LIKE` pattern `%s%` (so `%`, `_` and `\` inside the raw
search act as wildcards) against the invoice number or the owning client's
name — ordered by `created_at` descending; no filter returns all invoices in
that order. -/
theorem C9_list_filter_sort (s : Store) (f : Option InvoiceFilter)
    (hcl : (s.clients.map (·.id)).Nodup) :
    List.Perm (getInvoices s f)
      (s.invoices.filter (invoiceMatches s (f.getD emptyFilter))) ∧
    List.Sorted (fun a b : Invoice => b.created_at ≤ a.created_at) (getInvoices s f) ∧
    (∀ inv, inv ∈ getInvoices s f ↔
      (inv ∈ s.invoices ∧
        (∀ st, (f.getD emptyFilter).status = some st → inv.status = st) ∧
        (∀ cid, (f.getD emptyFilter).client_id = some cid → inv.client_id = cid) ∧
        (∀ q, (f.getD emptyFilter).search = some q →
          (likeContainsPat q inv.invoice_number = true ∨
            ∃ c ∈ s.clients, c.id = inv.client_id ∧ likeContainsPat q c.name = true)))) ∧
    (f = none → List.Perm (getInvoices s f) s.invoices) := by
  haveI : IsTotal Invoice (fun a b => b.created_at ≤ a.created_at) :=
    ⟨fun a b => le_total b.created_at a.created_at⟩
  haveI : IsTrans Invoice (fun a b => b.created_at ≤ a.created_at) :=
    ⟨fun _ _ _ hab hbc => le_trans hbc hab⟩
  have hperm : List.Perm (getInvoices s f)
      (s.invoices.filter (invoiceMatches s (f.getD emptyFilter))) :=
    List.perm_insertionSort _ _
  refine ⟨hperm, List.sorted_insertionSort _ _, ?_, ?_⟩
  · intro inv
    rw [hperm.mem_iff, List.mem_filter,
      invoiceMatches_iff s (f.getD emptyFilter) inv hcl]
  · intro hf
    subst hf
    have hall : s.invoices.filter (invoiceMatches s emptyFilter) = s.invoices :=
      List.filter_eq_self.2 (fun a _ => rfl)
    rw [← hall]
    exact hperm

/-- C9 counterexample to the claim as stated: the search goes through SQL
`LIKE`, which is case-sensitive and wildcard-interpreting — searching "abc"
does not match the invoice of client "ABC Company" although the claim's
case-insensitive substring match does, and searching "_" (pattern `%_%`)
matches every invoice although it is a literal substring of neither the
number nor the client name. -/
theorem C9_counterexample :
    getInvoices exStoreWithInv (some ⟨none, none, some "abc"⟩) = [] ∧
    exInv ∈ exStoreWithInv.invoices ∧
    specSearchMatches exStoreWithInv "abc" exInv = true ∧
    getInvoices exStoreWithInv (some ⟨none, none, some "_"⟩) = [exInv] ∧
    specSearchMatches exStoreWithInv "_" exInv = false := by
  exact ⟨rfl, by simp [exStoreWithInv], by decide, rfl, by decide⟩

/-- Witness for C9: searching "ABC" (exact case, no wildcards) finds the
example invoice via its owning client's name. -/
theorem C9_witness :
    exInv ∈ getInvoices exStoreWithInv (some ⟨none, none, some "ABC"⟩) := by
  have h := C9_list_filter_sort exStoreWithInv (some ⟨none, none, some "ABC"⟩)
    (by simp [exStoreWithInv, exClient])
  refine (h.2.2.1 exInv).2 ⟨by simp [exStoreWithInv], ?_, ?_, ?_⟩
  · intro st hst
    simp at hst
  · intro cid hcid
    simp at hcid
  · intro q hq
    have : q = "ABC" := by simpa using hq.symm
    subst this
    right
    exact ⟨exClient, by simp [exStoreWithInv], rfl, by decide⟩

end InvoiceApp

namespace InvoiceApp

/-! ## C3: invoice-number allocation -/

/-- C3 (amended): every successful `createInvoice` assigns
`invoice_number = allocateInvoiceNumber(stored numbers, INV-YYYYMM-)`;
concretely, when no stored number carries the month's tag the suffix is
`0001`, and otherwise it is one greater than the integer suffix of the
lexicographically greatest stored number with that tag; the assigned number
matches `^INV-\d{6}-\d{4}$` provided the greatest existing suffix in the
month is at most 9998 (the zero padding never truncates, so suffix 10000
would have five digits), and two sequential creates in the same calendar
month yield integer suffixes `N` then `N + 1`. -/
theorem C3_invoice_number_allocation :
    (∀ (s : Store) (input : CreateInvoiceInput) (clk : Clock) (inv : Invoice) (s' : Store),
      createInvoice s input clk = .ok (inv, s') →
      inv.invoice_number =
        allocateInvoiceNumber (s.invoices.map (·.invoice_number)) (monthCode clk)) ∧
    (∀ (s : Store) (input : CreateInvoiceInput) (clk : Clock) (inv : Invoice) (s' : Store),
      (s.invoices.map (·.invoice_number)).filter
        (fun n => likeStartsWith (monthCode clk) n) = [] →
      createInvoice s input clk = .ok (inv, s') →
      inv.invoice_number = monthCode clk ++ "0001") ∧
    (∀ (s : Store) (input : CreateInvoiceInput) (clk : Clock) (ks : List Nat) (M : Nat)
      (inv : Invoice) (s' : Store),
      (s.invoices.map (·.invoice_number)).filter
        (fun n => likeStartsWith (monthCode clk) n) =
        ks.map (fun k => monthCode clk ++ pad4 k) →
      (∀ k ∈ ks, k ≤ 9999) → M ∈ ks → (∀ k ∈ ks, k ≤ M) →
      createInvoice s input clk = .ok (inv, s') →
      inv.invoice_number = monthCode clk ++ pad4 (M + 1)) ∧
    (∀ (s : Store) (input : CreateInvoiceInput) (clk : Clock) (ks : List Nat)
      (inv : Invoice) (s' : Store),
      1000 ≤ clk.year → clk.year < 10000 → clk.month < 100 →
      (s.invoices.map (·.invoice_number)).filter
        (fun n => likeStartsWith (monthCode clk) n) =
        ks.map (fun k => monthCode clk ++ pad4 k) →
      (∀ k ∈ ks, k ≤ 9998) →
      createInvoice s input clk = .ok (inv, s') →
      matchesInvFormat inv.invoice_number = true) ∧
    (∀ (s : Store) (i1 i2 : CreateInvoiceInput) (clk1 clk2 : Clock) (ks : List Nat)
      (inv1 : Invoice) (s1 : Store) (inv2 : Invoice) (s2 : Store),
      clk1.year = clk2.year → clk1.month = clk2.month →
      (s.invoices.map (·.invoice_number)).filter
        (fun n => likeStartsWith (monthCode clk1) n) =
        ks.map (fun k => monthCode clk1 ++ pad4 k) →
      (∀ k ∈ ks, k ≤ 9998) →
      createInvoice s i1 clk1 = .ok (inv1, s1) →
      createInvoice s1 i2 clk2 = .ok (inv2, s2) →
      ∃ N, parseIntList (suffixSegment inv1.invoice_number) = some N ∧
        parseIntList (suffixSegment inv2.invoice_number) = some (N + 1)) := by
  have hnum : ∀ {s : Store} {input : CreateInvoiceInput} {clk : Clock} {inv : Invoice}
      {s' : Store}, createInvoice s input clk = .ok (inv, s') →
      inv.invoice_number =
        allocateInvoiceNumber (s.invoices.map (·.invoice_number)) (monthCode clk) := by
    intro s input clk inv s' h
    obtain ⟨h1, -⟩ := createInvoice_ok h
    rw [h1]
  have hinvs : ∀ {s : Store} {input : CreateInvoiceInput} {clk : Clock} {inv : Invoice}
      {s' : Store}, createInvoice s input clk = .ok (inv, s') →
      s'.invoices.map (·.invoice_number) =
        s.invoices.map (·.invoice_number) ++ [inv.invoice_number] := by
    intro s input clk inv s' h
    obtain ⟨-, h2⟩ := createInvoice_ok h
    rw [h2]
    simp
  refine ⟨fun s input clk inv s' h => hnum h, ?_, ?_, ?_, ?_⟩
  · intro s input clk inv s' hfil h
    have hall := (allocateInvoiceNumber_of_filter_eq (s.invoices.map (·.invoice_number)) clk []
      (by simpa using hfil) (by simp)).1 rfl
    rw [hnum h, hall]
    have h0001 : pad4 1 = "0001" := by decide
    rw [h0001]
  · intro s input clk ks M inv s' hfil hb hM hub h
    have hall := (allocateInvoiceNumber_of_filter_eq (s.invoices.map (·.invoice_number)) clk ks
      hfil hb).2 M hM hub
    rw [hnum h, hall]
  · intro s input clk ks inv s' hy1 hy2 hm hfil hb h
    cases ks with
    | nil =>
      have hall := (allocateInvoiceNumber_of_filter_eq (s.invoices.map (·.invoice_number))
        clk [] (by simpa using hfil) (by simp)).1 rfl
      rw [hnum h, hall]
      exact matchesInvFormat_monthCode_pad4 clk 1 hy1 hy2 hm (by omega)
    | cons k0 krest =>
      obtain ⟨M, hMmem, hMub, -⟩ := maxString?_map_pad4 (monthCode clk) (k0 :: krest)
        (by simp) (fun k hk => le_trans (hb k hk) (by omega))
      have hall := (allocateInvoiceNumber_of_filter_eq (s.invoices.map (·.invoice_number))
        clk (k0 :: krest) hfil (fun k hk => le_trans (hb k hk) (by omega))).2 M hMmem hMub
      rw [hnum h, hall]
      have hM9998 : M ≤ 9998 := hb M hMmem
      exact matchesInvFormat_monthCode_pad4 clk (M + 1) hy1 hy2 hm (by omega)
  · intro s i1 i2 clk1 clk2 ks inv1 s1 inv2 s2 hy hm hfil hb h1 h2
    have hmc : monthCode clk2 = monthCode clk1 := by
      rw [monthCode, monthCode, hy, hm]
    have hparse : ∀ (clk : Clock) (k : Nat),
        parseIntList (suffixSegment (monthCode clk ++ pad4 k)) = some k := by
      intro clk k
      rw [suffixSegment_monthCode _ _ (dash_not_mem_pad4 k), parseIntList_pad4]
    have hfil1 : s1.invoices.map (·.invoice_number) =
        s.invoices.map (·.invoice_number) ++ [inv1.invoice_number] := hinvs h1
    cases ks with
    | nil =>
      have hn1 : inv1.invoice_number = monthCode clk1 ++ pad4 1 := by
        have hall := (allocateInvoiceNumber_of_filter_eq (s.invoices.map (·.invoice_number))
          clk1 [] (by simpa using hfil) (by simp)).1 rfl
        rw [hnum h1, hall]
      have hfil2 : (s1.invoices.map (·.invoice_number)).filter
          (fun n => likeStartsWith (monthCode clk2) n) =
          [1].map (fun k => monthCode clk2 ++ pad4 k) := by
        rw [hfil1, List.filter_append, hmc, hfil, hn1]
        simp [likeStartsWith_append]
      have hn2 : inv2.invoice_number = monthCode clk2 ++ pad4 2 := by
        have hall := (allocateInvoiceNumber_of_filter_eq (s1.invoices.map (·.invoice_number))
          clk2 [1] hfil2 (by simp)).2 1 (by simp) (by simp)
        rw [hnum h2, hall]
      refine ⟨1, ?_, ?_⟩
      · rw [hn1, hparse]
      · rw [hn2, hparse]
    | cons k0 krest =>
      obtain ⟨M, hMmem, hMub, -⟩ := maxString?_map_pad4 (monthCode clk1) (k0 :: krest)
        (by simp) (fun k hk => le_trans (hb k hk) (by omega))
      have hn1 : inv1.invoice_number = monthCode clk1 ++ pad4 (M + 1) := by
        have hall := (allocateInvoiceNumber_of_filter_eq (s.invoices.map (·.invoice_number))
          clk1 (k0 :: krest) hfil
          (fun k hk => le_trans (hb k hk) (by omega))).2 M hMmem hMub
        rw [hnum h1, hall]
      have hfil2 : (s1.invoices.map (·.invoice_number)).filter
          (fun n => likeStartsWith (monthCode clk2) n) =
          ((k0 :: krest) ++ [M + 1]).map (fun k => monthCode clk2 ++ pad4 k) := by
        rw [hfil1, List.filter_append, hmc, hfil, hn1]
        simp [likeStartsWith_append]
      have hb2 : ∀ k ∈ (k0 :: krest) ++ [M + 1], k ≤ 9999 := by
        intro k hk
        rcases List.mem_append.1 hk with hk | hk
        · exact le_trans (hb k hk) (by omega)
        · have hM9998 : M ≤ 9998 := hb M hMmem
          simp only [List.mem_singleton] at hk
          omega
      have hn2 : inv2.invoice_number = monthCode clk2 ++ pad4 (M + 2) := by
        have hall := (allocateInvoiceNumber_of_filter_eq (s1.invoices.map (·.invoice_number))
          clk2 ((k0 :: krest) ++ [M + 1]) hfil2 hb2).2 (M + 1)
          (List.mem_append.2 (Or.inr (by simp)))
          (by
            intro k hk
            rcases List.mem_append.1 hk with hk | hk
            · exact le_trans (hMub k hk) (by omega)
            · simp only [List.mem_singleton] at hk
              omega)
        rw [hnum h2, hall]
      refine ⟨M + 1, ?_, ?_⟩
      · rw [hn1, hparse]
      · rw [hn2, hparse]

/-- C3 counterexample to the claim as stated: with `INV-202501-9999` stored,
the next assigned number is `INV-202501-10000` — `padStart(4, '0')` does not
truncate — which fails `^INV-\d{6}-\d{4}$`. -/
theorem C3_counterexample :
    (createInvoice c3store c3input exClock).map (fun p => p.1.invoice_number) =
      .ok "INV-202501-10000" ∧
    matchesInvFormat "INV-202501-10000" = false := by
  exact ⟨rfl, by decide⟩

/-- Witness for C3: in the store holding `INV-202501-0001`, the next create in
January 2025 is assigned `INV-202501-0002`, which parses back to suffix 2 and
matches the external pattern. -/
theorem C3_witness :
    ∃ inv s', createInvoice exStoreWithInv c3input exClock2 = .ok (inv, s') ∧
      inv.invoice_number = monthCode exClock2 ++ pad4 (1 + 1) ∧
      matchesInvFormat inv.invoice_number = true ∧
      parseIntList (suffixSegment inv.invoice_number) = some 2 := by
  obtain ⟨inv, s', hok⟩ :
      ∃ inv s', createInvoice exStoreWithInv c3input exClock2 = .ok (inv, s') := by
    simp only [createInvoice, findClient, findItemRows]
    rw [if_neg (by decide), if_neg (by decide)]
    exact ⟨_, _, rfl⟩
  have hn := C3_invoice_number_allocation.2.2.1 exStoreWithInv c3input exClock2 [1] 1
    inv s' (by decide) (by decide) (by decide) (by decide) hok
  have hfmt := C3_invoice_number_allocation.2.2.2.1 exStoreWithInv c3input exClock2 [1]
    inv s' (by decide) (by decide) (by decide) (by decide) (by decide) hok
  refine ⟨inv, s', hok, hn, hfmt, ?_⟩
  rw [hn]
  decide

end InvoiceApp

namespace InvoiceApp

/-! ## C2: the derived-field invariant over operation sequences -/

theorem eq_of_same_id {invs : List Invoice} (hnd : (invs.map (·.id)).Nodup)
    {a b : Invoice} (ha : a ∈ invs) (hb : b ∈ invs) (he : a.id = b.id) : a = b :=
  List.inj_on_of_nodup_map hnd ha hb he

theorem map_id_update (invs : List Invoice) (iid : Nat) (new : Invoice)
    (hid : new.id = iid) :
    ((invs.map (fun i => if i.id == iid then new else i)).map (·.id)) =
      invs.map (·.id) := by
  rw [List.map_map]
  apply List.map_congr_left
  intro a _
  by_cases h : a.id = iid
  · simp [Function.comp, h, hid]
  · simp [Function.comp, h]

theorem filter_lines_ne (lines : List InvoiceLine) {a b : Nat} (hne : a ≠ b) :
    (lines.filter (fun l => l.invoice_id != b)).filter (fun l => l.invoice_id == a) =
      lines.filter (fun l => l.invoice_id == a) := by
  rw [List.filter_filter]
  apply List.filter_congr
  intro l _
  by_cases hx : l.invoice_id = a
  · simp [hx, hne]
  · simp [hx]

theorem preserve_create {s : Store} {input : CreateInvoiceInput} {clk : Clock}
    {inv : Invoice} {s' : Store}
    (h : createInvoice s input clk = .ok (inv, s'))
    (hgd : cent2 input.discount) (hgi : ∀ li ∈ input.items, centItem li)
    (hwf : storeWF s) (htc : totalsConsistent s) :
    storeWF s' ∧ totalsConsistent s' := by
  obtain ⟨h1, h2⟩ := createInvoice_ok h
  obtain ⟨hnd, hbi, hbl⟩ := hwf
  have hinvid : inv.id = s.nextInvoiceId := by rw [h1]
  have hS : cent2 (computeSubtotal input.items) :=
    cent2_computeSubtotal (fun li hli => (hgi li hli).2.2)
  have hx : cent2 (computeSubtotal input.items - input.discount) := cent2_sub hS hgd
  subst h2
  constructor
  · refine ⟨?_, ?_, ?_⟩
    · show ((s.invoices ++ [inv]).map (·.id)).Nodup
      rw [List.map_append, List.nodup_append]
      refine ⟨hnd, by simp, ?_⟩
      intro x hx hx2
      obtain ⟨i, hi, rfl⟩ := List.mem_map.1 hx
      simp only [List.map_cons, List.map_nil, List.mem_singleton] at hx2
      have := hbi i hi
      rw [hx2, hinvid] at this
      omega
    · intro i hi
      show i.id < s.nextInvoiceId + 1
      rcases List.mem_append.1 hi with hi | hi
      · have := hbi i hi
        omega
      · simp only [List.mem_singleton] at hi
        rw [hi, hinvid]
        omega
    · intro l hl
      show l.invoice_id < s.nextInvoiceId + 1
      rcases List.mem_append.1 hl with hl | hl
      · have := hbl l hl
        omega
      · rw [mkLines_invoice_id l hl]
        omega
  · intro i hi
    rcases List.mem_append.1 hi with hi | hi
    · obtain ⟨hrate, hc2s, hc2d, hsub, htax, htot⟩ := htc i hi
      refine ⟨hrate, hc2s, hc2d, ?_, htax, htot⟩
      have hnil : (mkLines s.nextInvoiceId s.nextLineId input.items clk.time).filter
          (fun l => l.invoice_id == i.id) = [] := by
        apply List.filter_eq_nil_iff.2
        intro l hl
        rw [mkLines_invoice_id l hl]
        have := hbi i hi
        simp only [beq_iff_eq]
        omega
      show i.subtotal = linesSubtotal
        ((s.invoice_lines ++ mkLines s.nextInvoiceId s.nextLineId input.items clk.time).filter
          (fun l => l.invoice_id == i.id))
      rw [List.filter_append, hnil, List.append_nil]
      exact hsub
    · simp only [List.mem_singleton] at hi
      have hiid : i.id = s.nextInvoiceId := by rw [hi, hinvid]
      have hrate' : i.tax_rate = 11 / 100 := by rw [hi, h1]
      have hsub' : i.subtotal = pgRound2 (computeSubtotal input.items) := by rw [hi, h1]
      have hdisc' : i.discount = pgRound2 input.discount := by rw [hi, h1]
      have htax' : i.tax_amount =
          pgRound2 ((computeSubtotal input.items - input.discount) * (11 / 100)) := by
        rw [hi, h1]
      have htot' : i.total_amount = pgRound2 (computeSubtotal input.items - input.discount +
          (computeSubtotal input.items - input.discount) * (11 / 100)) := by rw [hi, h1]
      have hsubS : i.subtotal = computeSubtotal input.items := by
        rw [hsub', pgRound2_cent2 hS]
      have hdiscD : i.discount = input.discount := by
        rw [hdisc', pgRound2_cent2 hgd]
      have hnil : s.invoice_lines.filter (fun l => l.invoice_id == i.id) = [] := by
        apply List.filter_eq_nil_iff.2
        intro l hl
        have := hbl l hl
        rw [hiid]
        simp only [beq_iff_eq]
        omega
      have hself : (mkLines s.nextInvoiceId s.nextLineId input.items clk.time).filter
          (fun l => l.invoice_id == i.id) =
          mkLines s.nextInvoiceId s.nextLineId input.items clk.time := by
        apply List.filter_eq_self.2
        intro l hl
        rw [mkLines_invoice_id l hl, hiid]
        simp
      refine ⟨hrate', ?_, ?_, ?_, ?_, ?_⟩
      · rw [hsub']
        exact cent2_pgRound2 _
      · rw [hdisc']
        exact cent2_pgRound2 _
      · show i.subtotal = linesSubtotal
          ((s.invoice_lines ++ mkLines s.nextInvoiceId s.nextLineId input.items clk.time).filter
            (fun l => l.invoice_id == i.id))
        rw [List.filter_append, hnil, hself, List.nil_append,
          linesSubtotal_mkLines_cent _ _ _ (fun li hli => ⟨(hgi li hli).1, (hgi li hli).2.1⟩),
          hsubS]
      · rw [htax', hsubS, hdiscD, hrate']
      · rw [htot', hsubS, hdiscD, htax']
        exact pgRound2_total_split hx

theorem preserve_update_none {s : Store} {input : UpdateInvoiceInput} {clk : Clock}
    {old inv : Invoice} {s' : Store}
    (hold : findInvoice s input.id = some old)
    (hnone : input.items = none) (hdisc : input.discount = none)
    (h : updateInvoice s input clk = .ok (inv, s'))
    (hwf : storeWF s) (htc : totalsConsistent s) :
    storeWF s' ∧ totalsConsistent s' := by
  obtain ⟨h1, h2⟩ := updateInvoice_ok_none hold hnone h
  obtain ⟨hnd, hbi, hbl⟩ := hwf
  have hold' : s.invoices.find? (fun i => i.id == input.id) = some old := hold
  have hmem : old ∈ s.invoices := List.mem_of_find?_eq_some hold'
  have hoid : old.id = input.id := by simpa using List.find?_some hold'
  have hinvid : inv.id = input.id := by rw [h1]; exact hoid
  subst h2
  constructor
  · refine ⟨?_, ?_, ?_⟩
    · show ((s.invoices.map fun i => if i.id == input.id then inv else i).map (·.id)).Nodup
      rw [map_id_update _ _ _ hinvid]
      exact hnd
    · intro i' hi'
      obtain ⟨i, hi, rfl⟩ := List.mem_map.1 hi'
      show _ < s.nextInvoiceId
      by_cases hc : (i.id == input.id) = true
      · rw [if_pos hc]
        rw [hinvid, ← hoid]
        exact hbi old hmem
      · rw [if_neg hc]
        exact hbi i hi
    · exact hbl
  · intro i' hi'
    obtain ⟨i, hi, rfl⟩ := List.mem_map.1 hi'
    by_cases hc : (i.id == input.id) = true
    · rw [if_pos hc]
      have hieq : i = old := eq_of_same_id hnd hi hmem (by rw [hoid]; simpa using hc)
      obtain ⟨hrate, hc2s, hc2d, hsub, htax, htot⟩ := htc old hmem
      refine ⟨?_, ?_, ?_, ?_, ?_, ?_⟩
      · rw [h1]; exact hrate
      · rw [h1]; exact hc2s
      · rw [h1, hdisc]
        exact hc2d
      · rw [h1, hdisc]
        exact hsub
      · rw [h1, hdisc]
        exact htax
      · rw [h1, hdisc]
        exact htot
    · rw [if_neg hc]
      exact htc i hi

theorem preserve_update_some {s : Store} {input : UpdateInvoiceInput} {clk : Clock}
    {old inv : Invoice} {its : List LineItemInput} {s' : Store}
    (hold : findInvoice s input.id = some old)
    (hits : input.items = some its)
    (h : updateInvoice s input clk = .ok (inv, s'))
    (hD : cent2 (input.discount.getD old.discount))
    (hgi : ∀ li ∈ its, centItem li)
    (hwf : storeWF s) (htc : totalsConsistent s) :
    storeWF s' ∧ totalsConsistent s' := by
  obtain ⟨h1, h2⟩ := updateInvoice_ok_some hold hits h
  have hS : cent2 (computeSubtotal its) :=
    cent2_computeSubtotal (fun li hli => (hgi li hli).2.2)
  have hx : cent2 (computeSubtotal its - input.discount.getD old.discount) :=
    cent2_sub hS hD
  obtain ⟨hnd, hbi, hbl⟩ := hwf
  have hold' : s.invoices.find? (fun i => i.id == input.id) = some old := hold
  have hmem : old ∈ s.invoices := List.mem_of_find?_eq_some hold'
  have hoid : old.id = input.id := by simpa using List.find?_some hold'
  have hinvid : inv.id = input.id := by rw [h1]; exact hoid
  subst h2
  constructor
  · refine ⟨?_, ?_, ?_⟩
    · show ((s.invoices.map fun i => if i.id == input.id then inv else i).map (·.id)).Nodup
      rw [map_id_update _ _ _ hinvid]
      exact hnd
    · intro i' hi'
      obtain ⟨i, hi, rfl⟩ := List.mem_map.1 hi'
      show _ < s.nextInvoiceId
      by_cases hc : (i.id == input.id) = true
      · rw [if_pos hc]
        rw [hinvid, ← hoid]
        exact hbi old hmem
      · rw [if_neg hc]
        exact hbi i hi
    · intro l hl
      show l.invoice_id < s.nextInvoiceId
      rcases List.mem_append.1 hl with hl | hl
      · exact hbl l (List.mem_of_mem_filter hl)
      · rw [mkLines_invoice_id l hl, ← hoid]
        exact hbi old hmem
  · intro i' hi'
    obtain ⟨i, hi, rfl⟩ := List.mem_map.1 hi'
    obtain ⟨hrateO, -, -, -, -, -⟩ := htc old hmem
    by_cases hc : (i.id == input.id) = true
    · rw [if_pos hc]
      have hinv_rate : inv.tax_rate = old.tax_rate := by rw [h1]
      have hinv_sub : inv.subtotal = pgRound2 (computeSubtotal its) := by rw [h1]
      have hinv_disc : inv.discount =
          (input.discount.map pgRound2).getD old.discount := by rw [h1]
      have hinv_tax : inv.tax_amount =
          pgRound2 ((computeSubtotal its - input.discount.getD old.discount) * (11 / 100)) := by
        rw [h1]
      have hinv_tot : inv.total_amount =
          pgRound2 (computeSubtotal its - input.discount.getD old.discount +
            (computeSubtotal its - input.discount.getD old.discount) * (11 / 100)) := by
        rw [h1]
      have hsubS : inv.subtotal = computeSubtotal its := by
        rw [hinv_sub, pgRound2_cent2 hS]
      have hdiscD : inv.discount = input.discount.getD old.discount := by
        rw [hinv_disc, map_pgRound2_getD _ _ hD]
      have hnil : (s.invoice_lines.filter (fun l => l.invoice_id != input.id)).filter
          (fun l => l.invoice_id == inv.id) = [] := by
        rw [hinvid, List.filter_filter]
        apply List.filter_eq_nil_iff.2
        intro l _
        by_cases hx : l.invoice_id = input.id <;> simp [hx]
      have hself : (mkLines input.id s.nextLineId its clk.time).filter
          (fun l => l.invoice_id == inv.id) =
          mkLines input.id s.nextLineId its clk.time := by
        rw [hinvid]
        apply List.filter_eq_self.2
        intro l hl
        rw [mkLines_invoice_id l hl]
        simp
      refine ⟨by rw [hinv_rate]; exact hrateO, ?_, ?_, ?_, ?_, ?_⟩
      · rw [hinv_sub]
        exact cent2_pgRound2 _
      · rw [hdiscD]
        exact hD
      · show inv.subtotal = linesSubtotal
          ((s.invoice_lines.filter (fun l => l.invoice_id != input.id)
            ++ mkLines input.id s.nextLineId its clk.time).filter
              (fun l => l.invoice_id == inv.id))
        rw [List.filter_append, hnil, hself, List.nil_append,
          linesSubtotal_mkLines_cent _ _ _ (fun li hli => ⟨(hgi li hli).1, (hgi li hli).2.1⟩),
          hsubS]
      · rw [hinv_tax, hsubS, hdiscD, hinv_rate, hrateO]
      · rw [hinv_tot, hsubS, hdiscD, hinv_tax]
        exact pgRound2_total_split hx
    · rw [if_neg hc]
      have hne : i.id ≠ input.id := by simpa using hc
      obtain ⟨hrate, hc2s, hc2d, hsub, htax, htot⟩ := htc i hi
      refine ⟨hrate, hc2s, hc2d, ?_, htax, htot⟩
      have hnil : (mkLines input.id s.nextLineId its clk.time).filter
          (fun l => l.invoice_id == i.id) = [] := by
        apply List.filter_eq_nil_iff.2
        intro l hl
        rw [mkLines_invoice_id l hl]
        simp only [beq_iff_eq]
        omega
      show i.subtotal = linesSubtotal
        ((s.invoice_lines.filter (fun l => l.invoice_id != input.id)
          ++ mkLines input.id s.nextLineId its clk.time).filter
            (fun l => l.invoice_id == i.id))
      rw [List.filter_append, hnil, List.append_nil, filter_lines_ne _ hne]
      exact hsub

theorem preserve_setStatus {s : Store} {input : UpdateInvoiceStatusInput} {clk : Clock}
    {old inv : Invoice} {s' : Store}
    (hold : findInvoice s input.id = some old)
    (h : updateInvoiceStatus s input clk = .ok (inv, s'))
    (hwf : storeWF s) (htc : totalsConsistent s) :
    storeWF s' ∧ totalsConsistent s' := by
  obtain ⟨h1, h2⟩ := updateInvoiceStatus_ok hold h
  obtain ⟨hnd, hbi, hbl⟩ := hwf
  have hold' : s.invoices.find? (fun i => i.id == input.id) = some old := hold
  have hmem : old ∈ s.invoices := List.mem_of_find?_eq_some hold'
  have hoid : old.id = input.id := by simpa using List.find?_some hold'
  have hinvid : inv.id = input.id := by rw [h1]; exact hoid
  subst h2
  constructor
  · refine ⟨?_, ?_, ?_⟩
    · show ((s.invoices.map fun i => if i.id == input.id then inv else i).map (·.id)).Nodup
      rw [map_id_update _ _ _ hinvid]
      exact hnd
    · intro i' hi'
      obtain ⟨i, hi, rfl⟩ := List.mem_map.1 hi'
      show _ < s.nextInvoiceId
      by_cases hc : (i.id == input.id) = true
      · rw [if_pos hc]
        rw [hinvid, ← hoid]
        exact hbi old hmem
      · rw [if_neg hc]
        exact hbi i hi
    · exact hbl
  · intro i' hi'
    obtain ⟨i, hi, rfl⟩ := List.mem_map.1 hi'
    by_cases hc : (i.id == input.id) = true
    · rw [if_pos hc]
      obtain ⟨hrate, hc2s, hc2d, hsub, htax, htot⟩ := htc old hmem
      exact ⟨by rw [h1]; exact hrate, by rw [h1]; exact hc2s, by rw [h1]; exact hc2d,
        by rw [h1]; exact hsub, by rw [h1]; exact htax, by rw [h1]; exact htot⟩
    · rw [if_neg hc]
      exact htc i hi

theorem preserve_delete (s : Store) (iid : Nat)
    (hwf : storeWF s) (htc : totalsConsistent s) :
    storeWF (deleteInvoice s iid).2 ∧ totalsConsistent (deleteInvoice s iid).2 := by
  obtain ⟨hnd, hbi, hbl⟩ := hwf
  constructor
  · refine ⟨?_, ?_, ?_⟩
    · show ((s.invoices.filter fun i => i.id != iid).map (·.id)).Nodup
      exact hnd.sublist ((List.filter_sublist _).map _)
    · intro i hi
      exact hbi i (List.mem_of_mem_filter hi)
    · intro l hl
      exact hbl l (List.mem_of_mem_filter hl)
  · intro i hi
    have hmem := List.mem_of_mem_filter hi
    have hne : i.id ≠ iid := by simpa using List.of_mem_filter hi
    obtain ⟨hrate, hc2s, hc2d, hsub, htax, htot⟩ := htc i hmem
    refine ⟨hrate, hc2s, hc2d, ?_, htax, htot⟩
    show i.subtotal = linesSubtotal
      ((s.invoice_lines.filter (fun l => l.invoice_id != iid)).filter
        (fun l => l.invoice_id == i.id))
    rw [filter_lines_ne _ hne]
    exact hsub

theorem runOp_preserves (s : Store) (op : Op) (hg : goodOp op)
    (hwf : storeWF s) (htc : totalsConsistent s) :
    storeWF (runOp s op) ∧ totalsConsistent (runOp s op) := by
  cases op with
  | create input clk =>
    rcases hc : createInvoice s input clk with e | ⟨inv, s'⟩
    · simp only [runOp, hc]
      exact ⟨hwf, htc⟩
    · simp only [runOp, hc]
      exact preserve_create hc hg.1 hg.2 hwf htc
  | update input clk =>
    rcases hc : updateInvoice s input clk with e | ⟨inv, s'⟩
    · simp only [runOp, hc]
      exact ⟨hwf, htc⟩
    · simp only [runOp, hc]
      cases hfi : findInvoice s input.id with
      | none =>
        rw [updateInvoice, hfi] at hc
        exact absurd hc (by simp)
      | some old =>
        obtain ⟨hor, hd_all, hits_all⟩ := hg
        cases hits : input.items with
        | none =>
          rcases hor with hdisc | hbad
          · exact preserve_update_none hfi hits hdisc hc hwf htc
          · exact absurd hits hbad
        | some its =>
          have hold' : s.invoices.find? (fun i => i.id == input.id) = some old := hfi
          have hmem : old ∈ s.invoices := List.mem_of_find?_eq_some hold'
          have hD : cent2 (input.discount.getD old.discount) := by
            cases hd : input.discount with
            | none =>
              obtain ⟨-, -, hc2d, -, -, -⟩ := htc old hmem
              exact hc2d
            | some d =>
              exact hd_all d hd
          exact preserve_update_some hfi hits hc hD (hits_all its hits) hwf htc
  | setStatus input clk =>
    rcases hc : updateInvoiceStatus s input clk with e | ⟨inv, s'⟩
    · simp only [runOp, hc]
      exact ⟨hwf, htc⟩
    · simp only [runOp, hc]
      cases hfi : findInvoice s input.id with
      | none =>
        rw [updateInvoiceStatus, hfi] at hc
        exact absurd hc (by simp)
      | some old =>
        exact preserve_setStatus hfi hc hwf htc
  | del iid =>
    exact preserve_delete s iid hwf htc

end InvoiceApp

namespace InvoiceApp

/-- C2 (amended): starting from any well-formed store whose totals are
consistent — in particular one whose invoice and line relations are empty —
any sequence of `createInvoice`, `updateInvoice`, `updateInvoiceStatus` and
`deleteInvoice` operations preserves the invariant `tax_rate = 0.11`,
`subtotal = Σ line.quantity × line.unit_price`, `tax_amount` = the
`numeric(10, 2)` rounding of `(subtotal − discount) × tax_rate`, and
`total_amount = subtotal − discount + tax_amount` for every stored invoice,
PROVIDED every update that supplies a discount also supplies `items[]` and
the monetary inputs are whole numbers of cents; the derived fields are never
taken from caller input (the input types carry no such fields) but recomputed
from the line items and the discount. -/
theorem C2_derived_fields_invariant :
    (∀ (s0 : Store) (ops : List Op), storeWF s0 → totalsConsistent s0 →
      (∀ op ∈ ops, goodOp op) →
      storeWF (runOps s0 ops) ∧ totalsConsistent (runOps s0 ops)) ∧
    (∀ (clients : List Client) (items : List Item) (nI nL : Nat),
      storeWF ⟨clients, items, [], [], nI, nL⟩ ∧
      totalsConsistent ⟨clients, items, [], [], nI, nL⟩) := by
  constructor
  · intro s0 ops
    induction ops generalizing s0 with
    | nil =>
      intro hwf htc _
      exact ⟨hwf, htc⟩
    | cons op rest ih =>
      intro hwf htc hgood
      obtain ⟨hwf', htc'⟩ := runOp_preserves s0 op (hgood op (by simp)) hwf htc
      exact ih (runOp s0 op) hwf' htc' (fun o ho => hgood o (by simp [ho]))
  · intro clients items nI nL
    refine ⟨⟨by simp, by simp, by simp⟩, ?_⟩
    intro i hi
    simp at hi

/-- C2 counterexample to the claim as stated: create an invoice (subtotal 100,
discount 0, tax 11), then update only the discount to 50.  The stored invoice
now has discount 50 but still tax_amount 11, while the invariant demands
(100 − 50) × 0.11 = 5.5 (all the amounts involved are whole cents, so no
storage rounding obscures the staleness). -/
theorem C2_counterexample :
    ∃ inv1 mid inv2 fin,
      createInvoice exStore c2createInput exClock = .ok (inv1, mid) ∧
      updateInvoice mid c2updInput exClock2 = .ok (inv2, fin) ∧
      runOps exStore c2ops = fin ∧
      inv2.subtotal = 100 ∧ inv2.discount = 50 ∧ inv2.tax_amount = 11 ∧
      inv2 ∈ fin.invoices ∧
      ¬ totalsConsistent fin := by
  obtain ⟨inv1, mid, h1⟩ :
      ∃ inv1 mid, createInvoice exStore c2createInput exClock = .ok (inv1, mid) := by
    simp only [createInvoice, findClient, findItemRows]
    rw [if_neg (by decide), if_neg (by decide)]
    exact ⟨_, _, rfl⟩
  obtain ⟨ha, hb⟩ := createInvoice_ok h1
  have hid1 : inv1.id = 0 := by rw [ha]; rfl
  have hcs : computeSubtotal c2createInput.items = 100 := by
    norm_num [computeSubtotal, c2createInput]
  have hsub1 : inv1.subtotal = 100 := by
    have : inv1.subtotal = pgRound2 (computeSubtotal c2createInput.items) := by rw [ha]
    rw [this, hcs, pgRound2_cent2 ⟨10000, by norm_num⟩]
  have hdisc1 : inv1.discount = 0 := by
    have : inv1.discount = pgRound2 c2createInput.discount := by rw [ha]
    rw [this, show c2createInput.discount = 0 from rfl, pgRound2_cent2 ⟨0, by norm_num⟩]
  have htax1 : inv1.tax_amount = 11 := by
    have : inv1.tax_amount =
        pgRound2 ((computeSubtotal c2createInput.items - c2createInput.discount) *
          (11 / 100)) := by rw [ha]
    rw [this, hcs, show c2createInput.discount = 0 from rfl]
    norm_num
    exact pgRound2_cent2 ⟨1100, by norm_num⟩
  have hrate1 : inv1.tax_rate = 11 / 100 := by rw [ha]
  have hmidinv : mid.invoices = [inv1] := by rw [hb]; rfl
  have hfind : findInvoice mid c2updInput.id = some inv1 := by
    rw [findInvoice, hmidinv]
    simp [List.find?, hid1, show c2updInput.id = 0 from rfl]
  obtain ⟨inv2, fin, h2⟩ :
      ∃ inv2 fin, updateInvoice mid c2updInput exClock2 = .ok (inv2, fin) := by
    simp only [updateInvoice, hfind]
    exact ⟨_, _, rfl⟩
  obtain ⟨hc, hdst⟩ := updateInvoice_ok_none hfind rfl h2
  have hsub2 : inv2.subtotal = 100 := by rw [hc]; exact hsub1
  have hrate2 : inv2.tax_rate = 11 / 100 := by rw [hc]; exact hrate1
  have htax2 : inv2.tax_amount = 11 := by rw [hc]; exact htax1
  have hdisc2 : inv2.discount = 50 := by
    have : inv2.discount = pgRound2 50 := by rw [hc]; rfl
    rw [this, pgRound2_cent2 ⟨5000, by norm_num⟩]
  have hmem2 : inv2 ∈ fin.invoices := by
    rw [hdst]
    exact @mem_update_map mid.invoices c2updInput.id inv1 inv2
      (by rw [hmidinv]; simp) (by rw [hid1]; rfl)
  have hrun : runOps exStore c2ops = fin := by
    show runOp (runOp exStore (.create c2createInput exClock)) (.update c2updInput exClock2)
      = fin
    rw [show runOp exStore (.create c2createInput exClock) = mid by
      simp only [runOp, h1]]
    simp only [runOp, h2]
  refine ⟨inv1, mid, inv2, fin, h1, h2, hrun, hsub2, hdisc2, htax2, hmem2, ?_⟩
  intro htc
  obtain ⟨-, -, -, -, htax, -⟩ := htc inv2 hmem2
  rw [htax2, hsub2, hdisc2, hrate2] at htax
  rw [show ((100 : ℚ) - 50) * (11 / 100) = 11 / 2 by norm_num,
    pgRound2_cent2 ⟨550, by norm_num⟩] at htax
  norm_num at htax

/-- Witness for C2: from the example store (clients and items present, no
invoices) the sequence create, set-status, delete-missing-id — all of which
satisfy the side conditions — ends in a well-formed, totals-consistent
store. -/
theorem C2_witness :
    storeWF (runOps exStore c2wops) ∧ totalsConsistent (runOps exStore c2wops) :=
  C2_derived_fields_invariant.1 exStore c2wops (by decide) (by intro i hi; simp [exStore] at hi)
    (by
      intro op hop
      have hcases : op = Op.create c2createInput exClock ∨
          op = Op.setStatus ⟨0, .sent⟩ exClock2 ∨ op = Op.del 7 := by
        simpa [c2wops] using hop
      rcases hcases with rfl | rfl | rfl
      · refine ⟨⟨0, by norm_num [c2createInput]⟩, ?_⟩
        intro li hli
        have hli' : li = (⟨1, 1, 100⟩ : LineItemInput) := by
          simpa [c2createInput] using hli
        subst hli'
        exact ⟨⟨100, by norm_num⟩, ⟨10000, by norm_num⟩, ⟨10000, by norm_num⟩⟩
      · exact trivial
      · exact trivial)

end InvoiceApp

namespace InvoiceApp

/-! ## C10: no duplicate invoice numbers under concurrent creation -/

/-- C10: under any interleaving of two concurrent `createInvoice` calls —
each one a read-and-allocate step followed by an insert that is subject to
the storage-level uniqueness constraint on `invoice_number` — the stored
numbers remain pairwise distinct, and the two calls can never both persist
the same number (the loser of the race fails with a constraint conflict
instead); in particular no two invoices with the same month tag ever receive
the same number. -/
theorem C10_no_duplicate_numbers (init st : AllocSystem) (pfx1 pfx2 : String)
    (hn : init.numbers.Nodup)
    (h1 : init.p1 = .ready pfx1) (h2 : init.p2 = .ready pfx2)
    (hr : Relation.ReflTransGen AllocStep init st) :
    st.numbers.Nodup ∧
    (∀ n, st.p1 = .committed n → n ∈ st.numbers) ∧
    (∀ n, st.p2 = .committed n → n ∈ st.numbers) ∧
    (∀ n1 n2, st.p1 = .committed n1 → st.p2 = .committed n2 → n1 ≠ n2) := by
  induction hr with
  | refl =>
    refine ⟨hn, ?_, ?_, ?_⟩
    · intro n hc
      rw [h1] at hc
      cases hc
    · intro n hc
      rw [h2] at hc
      cases hc
    · intro n1 n2 hc1 _
      rw [h1] at hc1
      cases hc1
  | @tail b c hab hbc ih =>
    obtain ⟨ihn, ihc1, ihc2, ihd⟩ := ih
    cases hbc with
    | alloc1 pfx hp =>
      refine ⟨ihn, ?_, ihc2, ?_⟩
      · intro n hc
        cases hc
      · intro n1 n2 hc1 _
        cases hc1
    | commit1_ok pfx n hp hnot =>
      refine ⟨?_, ?_, ?_, ?_⟩
      · show (b.numbers ++ [n]).Nodup
        rw [List.nodup_append]
        refine ⟨ihn, by simp, ?_⟩
        intro x hx hx2
        simp only [List.mem_singleton] at hx2
        subst hx2
        exact hnot hx
      · intro m hc
        injection hc with hnm
        subst hnm
        simp
      · intro m hc
        exact List.mem_append.2 (Or.inl (ihc2 m hc))
      · intro n1 n2 hc1 hc2
        injection hc1 with hn1
        subst hn1
        intro he
        subst he
        exact hnot (ihc2 _ hc2)
    | commit1_conflict pfx n hp hmem =>
      refine ⟨ihn, ?_, ihc2, ?_⟩
      · intro m hc
        cases hc
      · intro n1 n2 hc1 _
        cases hc1
    | alloc2 pfx hp =>
      refine ⟨ihn, ihc1, ?_, ?_⟩
      · intro n hc
        cases hc
      · intro n1 n2 _ hc2
        cases hc2
    | commit2_ok pfx n hp hnot =>
      refine ⟨?_, ?_, ?_, ?_⟩
      · show (b.numbers ++ [n]).Nodup
        rw [List.nodup_append]
        refine ⟨ihn, by simp, ?_⟩
        intro x hx hx2
        simp only [List.mem_singleton] at hx2
        subst hx2
        exact hnot hx
      · intro m hc
        exact List.mem_append.2 (Or.inl (ihc1 m hc))
      · intro m hc
        injection hc with hnm
        subst hnm
        simp
      · intro n1 n2 hc1 hc2
        injection hc2 with hn2
        subst hn2
        intro he
        subst he
        exact hnot (ihc1 _ hc1)
    | commit2_conflict pfx n hp hmem =>
      refine ⟨ihn, ihc1, ?_, ?_⟩
      · intro m hc
        cases hc
      · intro n1 n2 _ hc2
        cases hc2

/-- Witness for C10: the racy interleaving — both calls read the empty store
and compute `INV-202501-0001`, the first insert commits, the second hits the
uniqueness constraint — ends with distinct stored numbers and only one call
committed. -/
theorem C10_witness :
    c10s4.numbers.Nodup ∧
    (∀ n1 n2, c10s4.p1 = .committed n1 → c10s4.p2 = .committed n2 → n1 ≠ n2) := by
  have t1 : AllocStep c10init c10s1 := AllocStep.alloc1 c10init "INV-202501-" rfl
  have t2 : AllocStep c10s1 c10s2 := AllocStep.alloc2 c10s1 "INV-202501-" rfl
  have t3 : AllocStep c10s2 c10s3 :=
    AllocStep.commit1_ok c10s2 "INV-202501-" "INV-202501-0001" rfl (by simp [c10s2])
  have t4 : AllocStep c10s3 c10s4 :=
    AllocStep.commit2_conflict c10s3 "INV-202501-" "INV-202501-0001" rfl
      (by simp [c10s3])
  have hr : Relation.ReflTransGen AllocStep c10init c10s4 :=
    Relation.ReflTransGen.tail
      (Relation.ReflTransGen.tail
        (Relation.ReflTransGen.tail (Relation.ReflTransGen.single t1) t2) t3) t4
  have h := C10_no_duplicate_numbers c10init c10s4 "INV-202501-" "INV-202501-"
    (by simp [c10init]) rfl rfl hr
  exact ⟨h.1, h.2.2.2⟩

end InvoiceApp
